import Mathlib

/-!
# Verification of the Crater inventory / equipment manager

Shallow embedding of `UCraterInventoryManagerComponent`
(`src/Plugins/GameFeatures/CraterInventory/Source/CraterInventory/Private/CraterInventoryManagerComponent.cpp`)
and `UCraterInventoryFragment_Equippable`, together with proofs about the
equipment coordination layer: equip validation, the reconciler, swap fixup,
the grant/revoke protocol and the I3 invariant (no two valid slot entries
reference the same storage index).

The Elementus storage collaborator (`UElementusInventoryComponent`) is not
part of this repository's sources; its `AddItems` / `DiscardItems`
operations are modelled from the specification where a claim needs them
(see the definitions marked `Modelled from the spec`).
-/

namespace Crater

/-- Embeds `FElementusItemInfo`: an item identifier together with a stack quantity.
Identifiers are opaque values with equality; we model them as `Nat`.
Quantities are `int32` in the source; the claims never exercise overflow,
so we use `Int`. -/
structure ItemInfo where
  itemId : Nat
  quantity : Int
  deriving DecidableEq, Repr, Inhabited

/-- Default-constructed `FElementusItemInfo()`. -/
def ItemInfo.empty : ItemInfo := ⟨0, 0⟩

instance : Inhabited ItemInfo := ⟨ItemInfo.empty⟩

/-- Embeds `FCraterEquippedItemEntry`: one row of the equipment slot table.
`inventorySlotIndex = -1` (`INDEX_NONE`) marks an empty entry.
Ability/effect handles and loose tags are opaque; we model them as `Nat`.
The Lyra definition instance is opaque; we model its presence. -/
structure Entry where
  inventorySlotIndex : Int
  itemInfo : ItemInfo
  lyraInstance : Option Nat
  grantedAbilityHandles : List Nat
  appliedEffectHandles : List Nat
  grantedTags : List Nat
  deriving DecidableEq, Repr

/-- Embeds `FCraterEquippedItemEntry()` default state, also the result of `Reset()`. -/
def Entry.empty : Entry :=
  { inventorySlotIndex := -1
    itemInfo := ItemInfo.empty
    lyraInstance := none
    grantedAbilityHandles := []
    appliedEffectHandles := []
    grantedTags := [] }

instance : Inhabited Entry := ⟨Entry.empty⟩

/-- Embeds `FCraterEquippedItemEntry::IsValid`: `InventorySlotIndex != INDEX_NONE`. -/
def Entry.isValid (e : Entry) : Bool := e.inventorySlotIndex != -1

/-- Embeds `UCraterInventoryFragment_Equippable`: the equippable fragment value.
Ability and effect classes are opaque (`Nat`); a `none` element models a
null class reference, which the grant loop skips. Tag containers are lists
of opaque tags. -/
structure EquipFragment where
  abilitiesToGrant : List (Option Nat)
  effectsToApply : List (Option Nat)
  requiredEquipmentSlot : Int
  equippedTags : List Nat
  requiredTagsToEquip : List Nat
  blockingTagsToEquip : List Nat
  deriving DecidableEq, Repr

/-- Embeds `UElementusItemData_LyraIntegration` as seen by the manager: the
equippable flag, whether the Lyra definition template loads successfully,
and the (optional) equippable fragment found on that template. -/
structure LyraData where
  bCanBeEquipped : Bool
  hasTemplate : Bool
  fragment : Option EquipFragment
  deriving DecidableEq, Repr

/-- The ability-system collaborator's state, restricted to what the manager
touches: granted abilities, active effects and loose gameplay tags.
`looseTags` is a multiset (a tag may be applied several times). -/
structure ASCState where
  abilities : List Nat
  effects : List Nat
  looseTags : List Nat
  deriving DecidableEq, Repr

/-- The manager's state: the storage reference (`none` = not bound),
the replicated slot table, the configured slot count, and the (cached)
ability collaborator. -/
structure ManagerState where
  inventoryStorage : Option (List ItemInfo)
  equippedItems : List Entry
  maxEquipmentSlots : Int
  asc : Option ASCState
  deriving DecidableEq, Repr

/-- The item-definition adapter: resolves an identifier to the Lyra
integration data (`GetLyraIntegrationData`); `none` models an unknown
identifier or a non-Lyra item data. -/
def Env : Type := Nat → Option LyraData

/-- Embeds `ECraterEquipResult`. -/
inductive ECraterEquipResult where
  | Success
  | InvalidSlot
  | ItemNotEquippable
  | NoAvailableSlots
  | SlotMismatch
  | TagRequirementsFailed
  | StorageNotReady
  | AlreadyEquipped
  deriving DecidableEq, Repr

/-- Events broadcast by the manager that the claims observe. -/
inductive Event where
  | itemEquipped (slot : Int) (info : ItemInfo)
  | itemUnequipped (slot : Int) (info : ItemInfo)
  deriving DecidableEq, Repr

/-- Embeds `AUTO_EQUIP_SLOT`. -/
def AUTO_EQUIP_SLOT : Int := -1

/-- Embeds `INDEX_NONE`. -/
def INDEX_NONE : Int := -1

/-- Embeds `UCraterInventoryFragment_Equippable::CanBeEquippedBy`. -/
def EquipFragment.canBeEquippedBy (f : EquipFragment) (ownerTags : List Nat) : Bool :=
  if f.requiredTagsToEquip.length > 0 &&
      !(f.requiredTagsToEquip.all fun t => ownerTags.contains t) then
    false
  else if f.blockingTagsToEquip.length > 0 &&
      (f.blockingTagsToEquip.any fun t => ownerTags.contains t) then
    false
  else
    true

/-- Embeds `GetEquippableFragment`: resolve the item data, then look up the
equippable fragment on its Lyra template. -/
def getEquippableFragment (env : Env) (itemId : Nat) : Option EquipFragment :=
  match env itemId with
  | none => none
  | some d => d.fragment

/-- Embeds `CreateLyraInstanceFromItem`: returns an instance when the item has
Lyra integration data and its definition template loads; `none` otherwise. -/
def createLyraInstanceFromItem (env : Env) (info : ItemInfo) : Option Nat :=
  match env info.itemId with
  | none => none
  | some d => if d.hasTemplate then some info.itemId else none

/-- Embeds `ValidateStorageReady`. -/
def validateStorageReady (st : ManagerState) : Bool :=
  st.inventoryStorage.isSome

/-- Embeds `ValidateInventorySlot`: storage present and `Items.IsValidIndex(SlotIndex)`. -/
def validateInventorySlot (st : ManagerState) (slotIndex : Int) : Bool :=
  match st.inventoryStorage with
  | none => false
  | some items => 0 ≤ slotIndex && slotIndex < (items.length : Int)

/-- Embeds `IsValidEquipmentSlot`. -/
def isValidEquipmentSlot (st : ManagerState) (equipmentSlot : Int) : Bool :=
  0 ≤ equipmentSlot && equipmentSlot < (st.equippedItems.length : Int)

/-- Embeds `IsItemEquipped`: scans the slot table for a valid entry recording the
given storage index. -/
def isItemEquipped (st : ManagerState) (slotIndex : Int) : Bool :=
  st.equippedItems.any fun e => e.isValid && e.inventorySlotIndex == slotIndex

/-- Embeds `FindAppropriateEquipmentSlot`. -/
def findAppropriateEquipmentSlot (st : ManagerState) (equipFragment : Option EquipFragment)
    (preferredSlot : Int) : Int :=
  match equipFragment with
  | some f =>
    if f.requiredEquipmentSlot ≥ 0 then
      if f.requiredEquipmentSlot < st.maxEquipmentSlots then f.requiredEquipmentSlot
      else INDEX_NONE
    else
      if 0 ≤ preferredSlot && preferredSlot < (st.equippedItems.length : Int) then
        if !(st.equippedItems.getD preferredSlot.toNat Entry.empty).isValid then preferredSlot
        else INDEX_NONE
      else INDEX_NONE
  | none =>
    if 0 ≤ preferredSlot && preferredSlot < (st.equippedItems.length : Int) then
      if !(st.equippedItems.getD preferredSlot.toNat Entry.empty).isValid then preferredSlot
      else INDEX_NONE
    else INDEX_NONE

/-- Embeds `CanEquipItem`, with the validation steps in source order. -/
def canEquipItem (env : Env) (ownerTags : List Nat) (st : ManagerState)
    (slotIndex equipmentSlot : Int) : ECraterEquipResult :=
  match st.inventoryStorage with
  | none => .StorageNotReady
  | some items =>
    if !(0 ≤ slotIndex && slotIndex < (items.length : Int)) then .InvalidSlot
    else if isItemEquipped st slotIndex then .AlreadyEquipped
    else
      let itemInfo := items.getD slotIndex.toNat default
      match env itemInfo.itemId with
      | none => .ItemNotEquippable
      | some lyraData =>
        if !lyraData.bCanBeEquipped then .ItemNotEquippable
        else
          let equipFragment := getEquippableFragment env itemInfo.itemId
          let target : Option Int :=
            if equipmentSlot = AUTO_EQUIP_SLOT then
              let t := findAppropriateEquipmentSlot st equipFragment equipmentSlot
              if t = INDEX_NONE then none else some t
            else some equipmentSlot
          match target with
          | none => .NoAvailableSlots
          | some targetSlot =>
            if targetSlot < 0 || targetSlot ≥ st.maxEquipmentSlots then .InvalidSlot
            else
              match equipFragment with
              | some f =>
                if f.requiredEquipmentSlot ≥ 0 &&
                    (equipmentSlot ≥ 0 && equipmentSlot != f.requiredEquipmentSlot) then
                  .SlotMismatch
                else if !(f.canBeEquippedBy ownerTags) then .TagRequirementsFailed
                else .Success
              | none => .Success

/-- Core of `RevokeAbilitiesFromItem` acting on one entry: with no ability
collaborator just empty the three lists; otherwise clear each stored ability
handle, remove each applied effect handle and remove the recorded loose tags,
then empty the three lists. -/
def revokeHandles (asc : Option ASCState) (e : Entry) : Option ASCState × Entry :=
  match asc with
  | none =>
    (none, { e with grantedAbilityHandles := [], appliedEffectHandles := [], grantedTags := [] })
  | some a =>
    let a1 := { a with
      abilities := e.grantedAbilityHandles.foldl (fun acc h => acc.erase h) a.abilities }
    let a2 := { a1 with
      effects := e.appliedEffectHandles.foldl (fun acc h => acc.erase h) a1.effects }
    let a3 :=
      if e.grantedTags.length > 0 then { a2 with looseTags := a2.looseTags.diff e.grantedTags }
      else a2
    (some a3, { e with grantedAbilityHandles := [], appliedEffectHandles := [], grantedTags := [] })

/-- Embeds `RevokeAbilitiesFromItem`. -/
def revokeAbilitiesFromItem (st : ManagerState) (equipmentSlot : Int) : ManagerState :=
  if equipmentSlot < 0 || (st.equippedItems.length : Int) ≤ equipmentSlot then st
  else
    let e := st.equippedItems.getD equipmentSlot.toNat Entry.empty
    let r := revokeHandles st.asc e
    { st with asc := r.1, equippedItems := st.equippedItems.set equipmentSlot.toNat r.2 }

/-- Embeds `GrantAbilitiesFromItem`: with an ability collaborator and an equippable
fragment, grant each non-null ability class, apply each non-null effect class
and add the equipped tags as loose tags, recording the produced handles on the
entry. Handles are modelled as the granted class itself. -/
def grantAbilitiesFromItem (env : Env) (st : ManagerState) (equipmentSlot : Int)
    (info : ItemInfo) : ManagerState :=
  match st.asc with
  | none => st
  | some a =>
    match getEquippableFragment env info.itemId with
    | none => st
    | some f =>
      let e := st.equippedItems.getD equipmentSlot.toNat Entry.empty
      let abilityClasses := f.abilitiesToGrant.filterMap id
      let effectClasses := f.effectsToApply.filterMap id
      let a1 := { a with abilities := a.abilities ++ abilityClasses }
      let e1 := { e with grantedAbilityHandles := e.grantedAbilityHandles ++ abilityClasses }
      let a2 := { a1 with effects := a1.effects ++ effectClasses }
      let e2 := { e1 with appliedEffectHandles := e1.appliedEffectHandles ++ effectClasses }
      let a3 :=
        if f.equippedTags.length > 0 then { a2 with looseTags := a2.looseTags ++ f.equippedTags }
        else a2
      let e3 := if f.equippedTags.length > 0 then { e2 with grantedTags := f.equippedTags } else e2
      { st with asc := some a3, equippedItems := st.equippedItems.set equipmentSlot.toNat e3 }

/-- Embeds `Server_UnequipItem_Implementation`: together with the new state, the
emitted `OnItemUnequipped` broadcasts. -/
def serverUnequipItem (st : ManagerState) (equipmentSlot : Int) : ManagerState × List Event :=
  if !isValidEquipmentSlot st equipmentSlot then (st, [])
  else
    let e := st.equippedItems.getD equipmentSlot.toNat Entry.empty
    if !e.isValid then (st, [])
    else
      let unequippedItem := e.itemInfo
      let st1 := revokeAbilitiesFromItem st equipmentSlot
      let st2 := { st1 with equippedItems := st1.equippedItems.set equipmentSlot.toNat Entry.empty }
      (st2, [.itemUnequipped equipmentSlot unequippedItem])

/-- The target-slot recomputation at the top of `Server_EquipItem_Implementation`:
the caller's slot, or `FindAppropriateEquipmentSlot` when it is `AUTO_EQUIP_SLOT`. -/
def equipTargetSlot (env : Env) (st : ManagerState) (info : ItemInfo)
    (equipmentSlot : Int) : Int :=
  if equipmentSlot = AUTO_EQUIP_SLOT then
    findAppropriateEquipmentSlot st (getEquippableFragment env info.itemId) equipmentSlot
  else equipmentSlot

/-- Embeds `Server_EquipItem_Implementation`: validate, recompute the target slot,
cascade-unequip an occupied target, populate the entry, grant, broadcast. -/
def serverEquipItem (env : Env) (ownerTags : List Nat) (st : ManagerState)
    (slotIndex equipmentSlot : Int) : ManagerState × List Event :=
  if canEquipItem env ownerTags st slotIndex equipmentSlot ≠ .Success then (st, [])
  else
    match st.inventoryStorage with
    | none => (st, [])
    | some items =>
      let info := items.getD slotIndex.toNat default
      let targetSlot := equipTargetSlot env st info equipmentSlot
      let r1 :=
        if (st.equippedItems.getD targetSlot.toNat Entry.empty).isValid then
          serverUnequipItem st targetSlot
        else (st, [])
      let st1 := r1.1
      let e := st1.equippedItems.getD targetSlot.toNat Entry.empty
      let e1 := { e with
        inventorySlotIndex := slotIndex
        itemInfo := info
        lyraInstance := createLyraInstanceFromItem env info }
      let st2 := { st1 with equippedItems := st1.equippedItems.set targetSlot.toNat e1 }
      let st3 := grantAbilitiesFromItem env st2 targetSlot info
      (st3, r1.2 ++ [.itemEquipped targetSlot info])

/-- The linear identifier scan of `ValidateEquippedItems`: index of the first
storage entry whose identifier equals `itemId`. -/
def firstMatchIdx (itemId : Nat) : List ItemInfo → Option Nat
  | [] => none
  | x :: xs =>
    if x.itemId = itemId then some 0
    else (firstMatchIdx itemId xs).map (· + 1)

/-- One iteration of the `ValidateEquippedItems` loop on one entry. -/
def reconcileEntry (items : List ItemInfo) (asc : Option ASCState) (e : Entry) :
    Option ASCState × Entry :=
  if !e.isValid then (asc, e)
  else
    match firstMatchIdx e.itemInfo.itemId items with
    | some j =>
      (asc, { e with inventorySlotIndex := (j : Int), itemInfo := items.getD j default })
    | none =>
      let r := revokeHandles asc e
      (r.1, Entry.empty)

/-- The `ValidateEquippedItems` loop over the slot table. -/
def reconcileList (items : List ItemInfo) (asc : Option ASCState) :
    List Entry → Option ASCState × List Entry
  | [] => (asc, [])
  | e :: es =>
    let r := reconcileEntry items asc e
    let rs := reconcileList items r.1 es
    (rs.1, r.2 :: rs.2)

/-- Embeds `ValidateEquippedItems`. -/
def validateEquippedItems (st : ManagerState) : ManagerState :=
  match st.inventoryStorage with
  | none => st
  | some items =>
    let r := reconcileList items st.asc st.equippedItems
    { st with asc := r.1, equippedItems := r.2 }

/-- Embeds `SyncLyraInstances`. -/
def syncLyraInstances (env : Env) (st : ManagerState) : ManagerState :=
  { st with
    equippedItems := st.equippedItems.map fun e =>
      if e.isValid && e.lyraInstance.isNone then
        { e with lyraInstance := createLyraInstanceFromItem env e.itemInfo }
      else e }

/-- Embeds `HandleStorageUpdate` (reentrancy guard aside, which the sequential model
never triggers): reconcile the slot table, then rebuild missing instances. -/
def handleStorageUpdate (env : Env) (st : ManagerState) : ManagerState :=
  syncLyraInstances env (validateEquippedItems st)

/-- The body of the `UpdateEquippedIndicesAfterSwap` loop on one entry. -/
def fixupEntry (fromIndex toIndex : Int) (e : Entry) : Entry :=
  if !e.isValid then e
  else if e.inventorySlotIndex = fromIndex then { e with inventorySlotIndex := toIndex }
  else if e.inventorySlotIndex = toIndex then { e with inventorySlotIndex := fromIndex }
  else e

/-- Embeds `UpdateEquippedIndicesAfterSwap` (the swap-fixup). -/
def updateEquippedIndicesAfterSwap (st : ManagerState) (fromIndex toIndex : Int) :
    ManagerState :=
  { st with equippedItems := st.equippedItems.map (fixupEntry fromIndex toIndex) }

/-- Modelled from the spec: `UElementusInventoryComponent::AddItems` for a
single item (the storage collaborator is not part of this repository's
sources). Per §6 and the manager's documentation, adding an item whose
identifier is already stored increases that stack when the identifier is
stackable; otherwise a new entry is appended. Stackability is the storage
collaborator's rule, passed in as `stackable`. -/
def addOneItem (stackable : Nat → Bool) (items : List ItemInfo) (it : ItemInfo) :
    List ItemInfo :=
  if stackable it.itemId then
    match firstMatchIdx it.itemId items with
    | some j =>
      items.set j
        { items.getD j default with quantity := (items.getD j default).quantity + it.quantity }
    | none => items ++ [it]
  else items ++ [it]

/-- Modelled from the spec: `AddItems` over a list. -/
def addItemsSpec (stackable : Nat → Bool) (toAdd : List ItemInfo) (items : List ItemInfo) :
    List ItemInfo :=
  toAdd.foldl (addOneItem stackable) items

/-- Modelled from the spec: removal of a quantity of one identifier by
`UElementusInventoryComponent::DiscardItems`. Stacks of the identifier are
consumed in order; exhausted stacks are dropped; if the quantity exceeds what
is present, every stack of the identifier is removed. -/
def discardQty (itemId : Nat) (q : Int) : List ItemInfo → List ItemInfo
  | [] => []
  | x :: xs =>
    if x.itemId = itemId then
      if q ≥ x.quantity then discardQty itemId (q - x.quantity) xs
      else if q > 0 then { x with quantity := x.quantity - q } :: xs
      else x :: xs
    else x :: discardQty itemId q xs

/-- Modelled from the spec: `DiscardItems` over a list of item infos. -/
def discardItemsSpec (cmds : List ItemInfo) (items : List ItemInfo) : List ItemInfo :=
  cmds.foldl (fun acc c => discardQty c.itemId c.quantity acc) items

/-- Embeds `Server_AddItem_Implementation`: forward a single-element add to storage
(storage mutation spec-modelled). -/
def serverAddItem (stackable : Nat → Bool) (st : ManagerState) (itemId : Nat)
    (quantity : Int) : ManagerState :=
  match st.inventoryStorage with
  | none => st
  | some items =>
    { st with inventoryStorage := some (addItemsSpec stackable [⟨itemId, quantity⟩] items) }

/-- Embeds `Server_RemoveItem_Implementation`: forward a single-element remove to
storage (storage mutation spec-modelled). -/
def serverRemoveItem (st : ManagerState) (itemId : Nat) (quantity : Int) : ManagerState :=
  match st.inventoryStorage with
  | none => st
  | some items =>
    { st with inventoryStorage := some (discardItemsSpec [⟨itemId, quantity⟩] items) }

/-- Embeds `Server_DiscardItem_Implementation`: returns the new state together with
the remove commands forwarded to storage (empty when the discard is refused).
The scan over `EquippedItems` compares `InventorySlotIndex` without an
`IsValid` check, as in the source. Storage mutation spec-modelled. -/
def serverDiscardItem (st : ManagerState) (itemIndex quantity : Int) :
    ManagerState × List ItemInfo :=
  match st.inventoryStorage with
  | none => (st, [])
  | some items =>
    if !(0 ≤ itemIndex && itemIndex < (items.length : Int)) then (st, [])
    else if st.equippedItems.any (fun e => e.inventorySlotIndex == itemIndex) then (st, [])
    else
      let itemAtIndex := items.getD itemIndex.toNat default
      let removeQty := min quantity itemAtIndex.quantity
      let cmds : List ItemInfo := [⟨itemAtIndex.itemId, removeQty⟩]
      ({ st with inventoryStorage := some (discardItemsSpec cmds items) }, cmds)

/-- Embeds `Server_SwapItems_Implementation`: guards, snapshot both entries, remove
both and re-add in swapped order (storage mutation spec-modelled), then run
the swap-fixup. The boolean reports whether storage was mutated. -/
def serverSwapItems (stackable : Nat → Bool) (st : ManagerState)
    (fromSlotIndex toSlotIndex : Int) : ManagerState × Bool :=
  match st.inventoryStorage with
  | none => (st, false)
  | some items =>
    if fromSlotIndex = toSlotIndex then (st, false)
    else if !((0 ≤ fromSlotIndex && fromSlotIndex < (items.length : Int)) &&
        (0 ≤ toSlotIndex && toSlotIndex < (items.length : Int))) then (st, false)
    else
      let fromItem := items.getD fromSlotIndex.toNat default
      let toItem := items.getD toSlotIndex.toNat default
      let items1 := discardItemsSpec [fromItem, toItem] items
      let items2 := addItemsSpec stackable [toItem, fromItem] items1
      let st1 := { st with inventoryStorage := some items2 }
      (updateEquippedIndicesAfterSwap st1 fromSlotIndex toSlotIndex, true)

/-- The six transactions of the controller, as invoked over the authority RPC
surface. -/
inductive Op where
  | add (itemId : Nat) (quantity : Int)
  | remove (itemId : Nat) (quantity : Int)
  | discard (itemIndex quantity : Int)
  | swap (fromSlotIndex toSlotIndex : Int)
  | equip (slotIndex equipmentSlot : Int)
  | unequip (equipmentSlot : Int)
  deriving DecidableEq, Repr

/-- One transaction run to completion: the storage mutation (when one is
forwarded) is followed by the storage-update callback, i.e. reconciliation.
Modelled from the spec (§5 ordering, §4.3 atomicity): the callback runs after
the transaction completes. -/
def applyOp (stackable : Nat → Bool) (env : Env) (ownerTags : List Nat)
    (st : ManagerState) : Op → ManagerState
  | .add itemId q =>
    if st.inventoryStorage.isSome then handleStorageUpdate env (serverAddItem stackable st itemId q)
    else st
  | .remove itemId q =>
    if st.inventoryStorage.isSome then handleStorageUpdate env (serverRemoveItem st itemId q)
    else st
  | .discard i q =>
    let r := serverDiscardItem st i q
    if r.2.isEmpty then r.1 else handleStorageUpdate env r.1
  | .swap i j =>
    let r := serverSwapItems stackable st i j
    if r.2 then handleStorageUpdate env r.1 else r.1
  | .equip i s => (serverEquipItem env ownerTags st i s).1
  | .unequip s => (serverUnequipItem st s).1

/-- A sequence of transactions. -/
def runOps (stackable : Nat → Bool) (env : Env) (ownerTags : List Nat)
    (st : ManagerState) (ops : List Op) : ManagerState :=
  ops.foldl (applyOp stackable env ownerTags) st

/-! ## Helper lemmas on lists -/

theorem getD_set_self {es : List α} {n : Nat} {v d : α} (h : n < es.length) :
    (es.set n v).getD n d = v := by
  simp [List.getD_eq_getElem?_getD, List.getElem?_set, h]

theorem getD_set_ne {es : List α} {n k : Nat} {v d : α} (h : n ≠ k) :
    (es.set n v).getD k d = es.getD k d := by
  simp [List.getD_eq_getElem?_getD, List.getElem?_set, h]

theorem getD_map_of_lt {es : List α} {f : α → β} {k : Nat} {d : β} {c : α}
    (h : k < es.length) : (es.map f).getD k d = f (es.getD k c) := by
  simp [List.getD_eq_getElem?_getD, List.getElem?_eq_getElem, h,
    List.getElem_map, List.getElem?_eq_getElem (l := es) h]

theorem getD_eq_getElem {es : List α} {k : Nat} {d : α} (h : k < es.length) :
    es.getD k d = es[k] := by
  simp [List.getD_eq_getElem?_getD, List.getElem?_eq_getElem, h]

/-! ## Properties of the identifier scan -/

theorem firstMatchIdx_lt {itemId : Nat} {items : List ItemInfo} {j : Nat}
    (h : firstMatchIdx itemId items = some j) : j < items.length := by
  induction items generalizing j with
  | nil => exact absurd h (by simp [firstMatchIdx])
  | cons x xs ih =>
    simp only [firstMatchIdx] at h
    by_cases hx : x.itemId = itemId
    · rw [if_pos hx] at h
      injection h with h
      subst h
      simp
    · rw [if_neg hx] at h
      cases hm : firstMatchIdx itemId xs with
      | none => rw [hm] at h; exact absurd h (by simp)
      | some j' =>
        rw [hm] at h
        simp only [Option.map_some'] at h
        injection h with h
        have := ih hm
        simp only [List.length_cons]
        omega

theorem firstMatchIdx_id {itemId : Nat} {items : List ItemInfo} {j : Nat}
    (h : firstMatchIdx itemId items = some j) :
    (items.getD j default).itemId = itemId := by
  induction items generalizing j with
  | nil => exact absurd h (by simp [firstMatchIdx])
  | cons x xs ih =>
    simp only [firstMatchIdx] at h
    by_cases hx : x.itemId = itemId
    · rw [if_pos hx] at h
      injection h with h
      subst h
      simpa [List.getD] using hx
    · rw [if_neg hx] at h
      cases hm : firstMatchIdx itemId xs with
      | none => rw [hm] at h; exact absurd h (by simp)
      | some j' =>
        rw [hm] at h
        simp only [Option.map_some'] at h
        injection h with h
        subst h
        simpa [List.getD_cons_succ] using ih hm

theorem firstMatchIdx_none {itemId : Nat} {items : List ItemInfo}
    (h : firstMatchIdx itemId items = none) : ∀ x ∈ items, x.itemId ≠ itemId := by
  induction items with
  | nil => simp
  | cons x xs ih =>
    by_cases hx : x.itemId = itemId
    · simp [firstMatchIdx, hx] at h
    · simp [firstMatchIdx, hx] at h
      intro y hy
      cases hy with
      | head => exact hx
      | tail _ hy => exact ih h y hy

theorem firstMatchIdx_isSome_of_mem {x : ItemInfo} {items : List ItemInfo}
    (hx : x ∈ items) : (firstMatchIdx x.itemId items).isSome := by
  cases h : firstMatchIdx x.itemId items with
  | some j => rfl
  | none => exact absurd rfl (firstMatchIdx_none h x hx)

/-! ## The I3 invariant and its strengthening -/

/-- Per-entry storage-binding condition: a valid entry's recorded storage
index is in range and the storage entry there carries the entry's cached
identifier. -/
def entryIdxOK (items : List ItemInfo) (e : Entry) : Prop :=
  e.isValid = true →
    0 ≤ e.inventorySlotIndex ∧ e.inventorySlotIndex < (items.length : Int) ∧
    (items.getD e.inventorySlotIndex.toNat default).itemId = e.itemInfo.itemId

instance (items : List ItemInfo) (e : Entry) : Decidable (entryIdxOK items e) := by
  unfold entryIdxOK; infer_instance

/-- Every slot entry satisfies `entryIdxOK`. -/
def idxOKAll (items : List ItemInfo) (es : List Entry) : Prop :=
  ∀ k, k < es.length → entryIdxOK items (es.getD k Entry.empty)

instance (items : List ItemInfo) (es : List Entry) : Decidable (idxOKAll items es) := by
  unfold idxOKAll; infer_instance

/-- Invariant I3: no two valid slot entries record the same storage index. -/
def distinctIdx (es : List Entry) : Prop :=
  ∀ k1, k1 < es.length → ∀ k2, k2 < es.length →
    (k1 ≠ k2 ∧ (es.getD k1 Entry.empty).isValid = true ∧
      (es.getD k2 Entry.empty).isValid = true) →
    (es.getD k1 Entry.empty).inventorySlotIndex ≠ (es.getD k2 Entry.empty).inventorySlotIndex

instance (es : List Entry) : Decidable (distinctIdx es) := by
  unfold distinctIdx; infer_instance

/-- Valid slot entries carry pairwise-distinct cached identifiers. -/
def cachedDistinct (es : List Entry) : Prop :=
  ∀ k1, k1 < es.length → ∀ k2, k2 < es.length →
    (k1 ≠ k2 ∧ (es.getD k1 Entry.empty).isValid = true ∧
      (es.getD k2 Entry.empty).isValid = true) →
    (es.getD k1 Entry.empty).itemInfo.itemId ≠ (es.getD k2 Entry.empty).itemInfo.itemId

/-- The strengthened reconciliation invariant: storage is bound, storage
identifiers are pairwise distinct, every valid entry is correctly bound to
storage, and I3 holds. -/
def Inv (st : ManagerState) : Prop :=
  ∃ items, st.inventoryStorage = some items ∧
    (items.map ItemInfo.itemId).Nodup ∧
    idxOKAll items st.equippedItems ∧
    distinctIdx st.equippedItems

/-! ## Preservation lemmas for point updates of the slot table -/

theorem distinctIdx_set {es : List Entry} {n : Nat} {v : Entry}
    (h : distinctIdx es)
    (hv : ∀ k, k < es.length → k ≠ n → (es.getD k Entry.empty).isValid = true →
      v.isValid = true →
      (es.getD k Entry.empty).inventorySlotIndex ≠ v.inventorySlotIndex) :
    distinctIdx (es.set n v) := by
  intro k1 h1 k2 h2 hcon
  obtain ⟨hne, hv1, hv2⟩ := hcon
  rw [List.length_set] at h1 h2
  by_cases he1 : k1 = n
  · by_cases he2 : k2 = n
    · exact absurd (he1.trans he2.symm) hne
    · subst he1
      rw [getD_set_self h1] at hv1 ⊢
      rw [getD_set_ne fun hh => he2 hh.symm] at hv2 ⊢
      exact (hv k2 h2 he2 hv2 hv1).symm
  · by_cases he2 : k2 = n
    · subst he2
      rw [getD_set_ne fun hh => he1 hh.symm] at hv1 ⊢
      rw [getD_set_self h2] at hv2 ⊢
      exact hv k1 h1 he1 hv1 hv2
    · rw [getD_set_ne fun hh => he1 hh.symm] at hv1 ⊢
      rw [getD_set_ne fun hh => he2 hh.symm] at hv2 ⊢
      exact h k1 h1 k2 h2 ⟨hne, hv1, hv2⟩

theorem idxOKAll_set {items : List ItemInfo} {es : List Entry} {n : Nat} {v : Entry}
    (h : idxOKAll items es) (hv : entryIdxOK items v) :
    idxOKAll items (es.set n v) := by
  intro k hk
  rw [List.length_set] at hk
  rcases eq_or_ne k n with rfl | e
  · rw [getD_set_self hk]; exact hv
  · rw [getD_set_ne (Ne.symm e)]; exact h k hk

theorem cachedDistinct_of {items : List ItemInfo} {es : List Entry}
    (hN : (items.map ItemInfo.itemId).Nodup)
    (hOK : idxOKAll items es) (hD : distinctIdx es) : cachedDistinct es := by
  have key : ∀ p q, p < items.length → q < items.length → p ≠ q →
      (items.getD p default).itemId ≠ (items.getD q default).itemId := by
    intro p q hp hq hpq
    have hmap := List.pairwise_iff_getElem.mp hN
    rw [getD_eq_getElem hp, getD_eq_getElem hq]
    have hp' : p < (items.map ItemInfo.itemId).length := by simpa using hp
    have hq' : q < (items.map ItemInfo.itemId).length := by simpa using hq
    rcases Nat.lt_or_ge p q with hlt | hge
    · have hne := hmap p q hp' hq' hlt
      simp only [List.getElem_map] at hne
      exact hne
    · have hqp : q < p := by omega
      have hne := hmap q p hq' hp' hqp
      simp only [List.getElem_map] at hne
      exact fun hEq => hne hEq.symm
  intro k1 h1 k2 h2 hcon
  obtain ⟨hne, hv1, hv2⟩ := hcon
  obtain ⟨ha1, hb1, hc1⟩ := hOK k1 h1 hv1
  obtain ⟨ha2, hb2, hc2⟩ := hOK k2 h2 hv2
  have hidx := hD k1 h1 k2 h2 ⟨hne, hv1, hv2⟩
  rw [← hc1, ← hc2]
  have hn1 : (es.getD k1 Entry.empty).inventorySlotIndex.toNat < items.length := by omega
  have hn2 : (es.getD k2 Entry.empty).inventorySlotIndex.toNat < items.length := by omega
  have htn : (es.getD k1 Entry.empty).inventorySlotIndex.toNat ≠
      (es.getD k2 Entry.empty).inventorySlotIndex.toNat := by omega
  exact key _ _ hn1 hn2 htn

/-! ## The reconciler as a per-entry map -/

/-- The pure per-entry effect of one `ValidateEquippedItems` iteration. -/
def reconEntryFun (items : List ItemInfo) (e : Entry) : Entry :=
  if !e.isValid then e
  else
    match firstMatchIdx e.itemInfo.itemId items with
    | some j => { e with inventorySlotIndex := (j : Int), itemInfo := items.getD j default }
    | none => Entry.empty

theorem reconcileEntry_snd (items : List ItemInfo) (asc : Option ASCState) (e : Entry) :
    (reconcileEntry items asc e).2 = reconEntryFun items e := by
  unfold reconcileEntry reconEntryFun
  cases hv : e.isValid
  · simp
  · simp only [Bool.not_true, Bool.false_eq_true, if_false]
    cases hm : firstMatchIdx e.itemInfo.itemId items <;> simp [hm]

theorem reconcileList_snd (items : List ItemInfo) :
    ∀ (es : List Entry) (asc : Option ASCState),
      (reconcileList items asc es).2 = es.map (reconEntryFun items) := by
  intro es
  induction es with
  | nil => intro asc; rfl
  | cons e es ih =>
    intro asc
    simp only [reconcileList, List.map_cons]
    rw [reconcileEntry_snd, ih]

theorem reconcileList_fst (items : List ItemInfo) :
    ∀ (es : List Entry) (asc : Option ASCState),
      (reconcileList items asc es).1 =
        (es.filter fun e =>
          e.isValid && (firstMatchIdx e.itemInfo.itemId items).isNone).foldl
          (fun a e => (revokeHandles a e).1) asc := by
  intro es
  induction es with
  | nil => intro asc; rfl
  | cons e es ih =>
    intro asc
    simp only [reconcileList, List.filter_cons]
    cases hv : e.isValid
    · have hasc : (reconcileEntry items asc e).1 = asc := by
        unfold reconcileEntry; simp [hv]
      rw [hasc, ih]
      simp [hv]
    · cases hm : firstMatchIdx e.itemInfo.itemId items with
      | some j =>
        have hasc : (reconcileEntry items asc e).1 = asc := by
          unfold reconcileEntry; simp [hv, hm]
        rw [hasc, ih]
        simp [hv, hm]
      | none =>
        have hasc : (reconcileEntry items asc e).1 = (revokeHandles asc e).1 := by
          unfold reconcileEntry; simp [hv, hm]
        rw [hasc, ih]
        simp [hv, hm]

theorem reconEntryFun_invalid {items : List ItemInfo} {e : Entry}
    (h : e.isValid = false) : reconEntryFun items e = e := by
  unfold reconEntryFun; simp [h]

theorem reconEntryFun_found {items : List ItemInfo} {e : Entry} {j : Nat}
    (h : e.isValid = true) (hm : firstMatchIdx e.itemInfo.itemId items = some j) :
    reconEntryFun items e =
      { e with inventorySlotIndex := (j : Int), itemInfo := items.getD j default } := by
  unfold reconEntryFun; simp [h, hm]

theorem reconEntryFun_vanished {items : List ItemInfo} {e : Entry}
    (h : e.isValid = true) (hm : firstMatchIdx e.itemInfo.itemId items = none) :
    reconEntryFun items e = Entry.empty := by
  unfold reconEntryFun; simp [h, hm]

theorem reconcile_idxOK (items : List ItemInfo) (es : List Entry) :
    idxOKAll items (es.map (reconEntryFun items)) := by
  intro k hk
  rw [List.length_map] at hk
  rw [getD_map_of_lt hk (c := Entry.empty)]
  cases hv : (es.getD k Entry.empty).isValid
  · rw [reconEntryFun_invalid hv]
    intro hvalid
    simp only [hv, Bool.false_eq_true] at hvalid
  · cases hm : firstMatchIdx (es.getD k Entry.empty).itemInfo.itemId items with
    | some j =>
      rw [reconEntryFun_found hv hm]
      intro _
      have hj := firstMatchIdx_lt hm
      refine ⟨by positivity, ?_, ?_⟩
      · simpa using (Int.ofNat_lt.mpr hj)
      · simp [Int.toNat_natCast]
    | none =>
      rw [reconEntryFun_vanished hv hm]
      intro hvalid
      exact absurd hvalid (by simp [Entry.isValid, Entry.empty])

theorem reconcile_distinct (items : List ItemInfo) (es : List Entry)
    (hC : cachedDistinct es) :
    distinctIdx (es.map (reconEntryFun items)) := by
  intro k1 h1 k2 h2 hcon
  obtain ⟨hne, hv1, hv2⟩ := hcon
  rw [List.length_map] at h1 h2
  rw [getD_map_of_lt h1 (c := Entry.empty)] at hv1 ⊢
  rw [getD_map_of_lt h2 (c := Entry.empty)] at hv2 ⊢
  cases hval1 : (es.getD k1 Entry.empty).isValid
  · rw [reconEntryFun_invalid hval1] at hv1
    simp only [hval1, Bool.false_eq_true] at hv1
  · cases hval2 : (es.getD k2 Entry.empty).isValid
    · rw [reconEntryFun_invalid hval2] at hv2
      simp only [hval2, Bool.false_eq_true] at hv2
    · cases hm1 : firstMatchIdx (es.getD k1 Entry.empty).itemInfo.itemId items with
      | none =>
        rw [reconEntryFun_vanished hval1 hm1] at hv1
        exact absurd hv1 (by simp [Entry.isValid, Entry.empty])
      | some j1 =>
        cases hm2 : firstMatchIdx (es.getD k2 Entry.empty).itemInfo.itemId items with
        | none =>
          rw [reconEntryFun_vanished hval2 hm2] at hv2
          exact absurd hv2 (by simp [Entry.isValid, Entry.empty])
        | some j2 =>
          rw [reconEntryFun_found hval1 hm1, reconEntryFun_found hval2 hm2]
          simp only
          intro hEq
          have hj : j1 = j2 := by exact_mod_cast hEq
          subst hj
          have hid1 := firstMatchIdx_id hm1
          have hid2 := firstMatchIdx_id hm2
          exact hC k1 h1 k2 h2 ⟨hne, hval1, hval2⟩ (hid1 ▸ hid2 ▸ rfl)

/-! ## Field-preservation through the per-entry maps -/

theorem fixupEntry_itemInfo (fromIndex toIndex : Int) (e : Entry) :
    (fixupEntry fromIndex toIndex e).itemInfo = e.itemInfo := by
  unfold fixupEntry
  by_cases hv : (!e.isValid) = true
  · rw [if_pos hv]
  · rw [if_neg hv]
    by_cases h1 : e.inventorySlotIndex = fromIndex
    · rw [if_pos h1]
    · rw [if_neg h1]
      by_cases h2 : e.inventorySlotIndex = toIndex
      · rw [if_pos h2]
      · rw [if_neg h2]

theorem fixupEntry_valid_of {fromIndex toIndex : Int} {e : Entry}
    (h : (fixupEntry fromIndex toIndex e).isValid = true) : e.isValid = true := by
  by_cases hv : e.isValid = true
  · exact hv
  · have hf : e.isValid = false := by
      cases hvv : e.isValid
      · rfl
      · exact absurd hvv hv
    unfold fixupEntry at h
    rw [hf] at h
    simp [hf] at h

theorem cachedDistinct_map_fixup {es : List Entry} (fromIndex toIndex : Int)
    (hC : cachedDistinct es) :
    cachedDistinct (es.map (fixupEntry fromIndex toIndex)) := by
  intro k1 h1 k2 h2 hcon
  obtain ⟨hne, hv1, hv2⟩ := hcon
  rw [List.length_map] at h1 h2
  rw [getD_map_of_lt h1 (c := Entry.empty)] at hv1 ⊢
  rw [getD_map_of_lt h2 (c := Entry.empty)] at hv2 ⊢
  rw [fixupEntry_itemInfo, fixupEntry_itemInfo]
  exact hC k1 h1 k2 h2 ⟨hne, fixupEntry_valid_of hv1, fixupEntry_valid_of hv2⟩

/-- The per-entry map of `SyncLyraInstances`. -/
def syncEntryFun (env : Env) (e : Entry) : Entry :=
  if e.isValid && e.lyraInstance.isNone then
    { e with lyraInstance := createLyraInstanceFromItem env e.itemInfo }
  else e

theorem syncEntryFun_idx (env : Env) (e : Entry) :
    (syncEntryFun env e).inventorySlotIndex = e.inventorySlotIndex := by
  unfold syncEntryFun
  split <;> simp

theorem syncEntryFun_itemInfo (env : Env) (e : Entry) :
    (syncEntryFun env e).itemInfo = e.itemInfo := by
  unfold syncEntryFun
  split <;> simp

theorem syncEntryFun_valid (env : Env) (e : Entry) :
    (syncEntryFun env e).isValid = e.isValid := by
  unfold Entry.isValid
  rw [syncEntryFun_idx]

theorem syncLyraInstances_eq_map (env : Env) (st : ManagerState) :
    syncLyraInstances env st =
      { st with equippedItems := st.equippedItems.map (syncEntryFun env) } := rfl

theorem idxOKAll_map_sync {env : Env} {items : List ItemInfo} {es : List Entry}
    (h : idxOKAll items es) : idxOKAll items (es.map (syncEntryFun env)) := by
  intro k hk
  rw [List.length_map] at hk
  rw [getD_map_of_lt hk (c := Entry.empty)]
  intro hv
  rw [syncEntryFun_valid] at hv
  rw [syncEntryFun_idx, syncEntryFun_itemInfo]
  exact h k hk hv

theorem distinctIdx_map_sync {env : Env} {es : List Entry}
    (h : distinctIdx es) : distinctIdx (es.map (syncEntryFun env)) := by
  intro k1 h1 k2 h2 hcon
  obtain ⟨hne, hv1, hv2⟩ := hcon
  rw [List.length_map] at h1 h2
  rw [getD_map_of_lt h1 (c := Entry.empty)] at hv1 ⊢
  rw [getD_map_of_lt h2 (c := Entry.empty)] at hv2 ⊢
  rw [syncEntryFun_valid] at hv1 hv2
  rw [syncEntryFun_idx, syncEntryFun_idx]
  exact h k1 h1 k2 h2 ⟨hne, hv1, hv2⟩

/-! ## Storage identifier uniqueness through the spec-modelled mutations -/

theorem map_itemId_set_same {items : List ItemInfo} {j : Nat} {v : ItemInfo}
    (hj : j < items.length) (hv : v.itemId = (items.getD j default).itemId) :
    (items.set j v).map ItemInfo.itemId = items.map ItemInfo.itemId := by
  apply List.ext_getElem
  · simp
  · intro i hi1 hi2
    rw [List.length_map, List.length_set] at hi1
    rw [List.getElem_map, List.getElem_map, List.getElem_set]
    by_cases hij : j = i
    · subst hij
      rw [if_pos rfl, hv, getD_eq_getElem hj]
    · rw [if_neg hij]

theorem addOneItem_nodup {stackable : Nat → Bool} {items : List ItemInfo} {it : ItemInfo}
    (hstk : ∀ n, stackable n = true)
    (hN : (items.map ItemInfo.itemId).Nodup) :
    ((addOneItem stackable items it).map ItemInfo.itemId).Nodup := by
  unfold addOneItem
  rw [hstk it.itemId]
  simp only [if_true]
  cases hm : firstMatchIdx it.itemId items with
  | some j =>
    simp only
    have hset := @map_itemId_set_same items j
      { itemId := (items.getD j default).itemId,
        quantity := (items.getD j default).quantity + it.quantity }
      (firstMatchIdx_lt hm) rfl
    rw [hset]
    exact hN
  | none =>
    rw [List.map_append]
    rw [List.nodup_append]
    refine ⟨hN, by simp, ?_⟩
    intro a ha hb
    simp only [List.map_cons, List.map_nil, List.mem_singleton] at hb
    subst hb
    rw [List.mem_map] at ha
    obtain ⟨x, hx, hxa⟩ := ha
    exact firstMatchIdx_none hm x hx hxa

theorem addItemsSpec_nodup {stackable : Nat → Bool} (hstk : ∀ n, stackable n = true) :
    ∀ (toAdd items : List ItemInfo), (items.map ItemInfo.itemId).Nodup →
      ((addItemsSpec stackable toAdd items).map ItemInfo.itemId).Nodup := by
  intro toAdd
  induction toAdd with
  | nil => intro items h; exact h
  | cons c cs ih =>
    intro items h
    unfold addItemsSpec
    rw [List.foldl_cons]
    exact ih _ (addOneItem_nodup hstk h)

theorem discardQty_sublist (itemId : Nat) :
    ∀ (items : List ItemInfo) (q : Int),
      ((discardQty itemId q items).map ItemInfo.itemId).Sublist
        (items.map ItemInfo.itemId) := by
  intro items
  induction items with
  | nil => intro q; simp [discardQty]
  | cons x xs ih =>
    intro q
    simp only [discardQty]
    by_cases hx : x.itemId = itemId
    · rw [if_pos hx]
      by_cases h1 : q ≥ x.quantity
      · rw [if_pos h1]
        simp only [List.map_cons]
        exact (ih _).cons _
      · rw [if_neg h1]
        by_cases h2 : q > 0
        · rw [if_pos h2]
          simp only [List.map_cons]
          exact List.Sublist.refl _
        · rw [if_neg h2]
    · rw [if_neg hx]
      simp only [List.map_cons]
      exact (ih q).cons₂ _

theorem discardItemsSpec_nodup :
    ∀ (cmds items : List ItemInfo), (items.map ItemInfo.itemId).Nodup →
      ((discardItemsSpec cmds items).map ItemInfo.itemId).Nodup := by
  intro cmds
  induction cmds with
  | nil => intro items h; exact h
  | cons c cs ih =>
    intro items h
    unfold discardItemsSpec
    rw [List.foldl_cons]
    exact ih _ ((discardQty_sublist c.itemId items c.quantity).nodup h)

/-! ## Shape lemmas for the mutators -/

theorem getD_of_length_le {es : List α} {n : Nat} {d : α} (h : es.length ≤ n) :
    es.getD n d = d := by
  simp [List.getD_eq_getElem?_getD, List.getElem?_eq_none h]

theorem getD_mem {es : List α} {n : Nat} {d : α} (h : n < es.length) :
    es.getD n d ∈ es := by
  rw [List.getD_eq_getElem?_getD, List.getElem?_eq_getElem h]
  exact List.getElem_mem h

theorem revokeHandles_snd (asc : Option ASCState) (e : Entry) :
    (revokeHandles asc e).2 =
      { e with grantedAbilityHandles := [], appliedEffectHandles := [], grantedTags := [] } := by
  unfold revokeHandles
  cases asc <;> rfl

theorem isItemEquipped_eq_false {st : ManagerState} {i : Int}
    (h : isItemEquipped st i = false) :
    ∀ k, k < st.equippedItems.length →
      (st.equippedItems.getD k Entry.empty).isValid = true →
      (st.equippedItems.getD k Entry.empty).inventorySlotIndex ≠ i := by
  intro k hk hv hEq
  rw [isItemEquipped, List.any_eq_false] at h
  have hmem := getD_mem (d := Entry.empty) hk
  have := h _ hmem
  rw [hv, hEq] at this
  simp at this

theorem inv_revoke {st : ManagerState} {s : Int} (h : Inv st) :
    Inv (revokeAbilitiesFromItem st s) := by
  obtain ⟨items, hst, hN, hOK, hD⟩ := h
  unfold revokeAbilitiesFromItem
  split
  · exact ⟨items, hst, hN, hOK, hD⟩
  · rename_i hg
    simp only [Bool.or_eq_true, decide_eq_true_eq, not_or, not_lt, not_le] at hg
    obtain ⟨hs0, hslen⟩ := hg
    have hn : s.toNat < st.equippedItems.length := by omega
    dsimp only
    rw [revokeHandles_snd]
    refine ⟨items, hst, hN, ?_, ?_⟩
    · apply idxOKAll_set hOK
      intro hv
      simp only [Entry.isValid] at hv ⊢
      exact hOK s.toNat hn hv
    · apply distinctIdx_set hD
      intro k hk hkn hvk hvv
      simp only [Entry.isValid] at hvv
      exact hD k hk s.toNat hn ⟨hkn, hvk, hvv⟩

theorem revoke_storage (st : ManagerState) (s : Int) :
    (revokeAbilitiesFromItem st s).inventoryStorage = st.inventoryStorage := by
  unfold revokeAbilitiesFromItem
  split <;> rfl

theorem revoke_max (st : ManagerState) (s : Int) :
    (revokeAbilitiesFromItem st s).maxEquipmentSlots = st.maxEquipmentSlots := by
  unfold revokeAbilitiesFromItem
  split <;> rfl

theorem revoke_equipped {st : ManagerState} {s : Int}
    (h0 : 0 ≤ s) (hlen : s < (st.equippedItems.length : Int)) :
    (revokeAbilitiesFromItem st s).equippedItems =
      st.equippedItems.set s.toNat
        { st.equippedItems.getD s.toNat Entry.empty with
          grantedAbilityHandles := [], appliedEffectHandles := [], grantedTags := [] } := by
  unfold revokeAbilitiesFromItem
  split
  · rename_i hg
    simp only [Bool.or_eq_true, decide_eq_true_eq] at hg
    omega
  · dsimp only
    rw [revokeHandles_snd]

theorem unequip_shape (st : ManagerState) (s : Int) :
    (serverUnequipItem st s).1 = st ∨
      ((serverUnequipItem st s).1.inventoryStorage = st.inventoryStorage ∧
       (serverUnequipItem st s).1.maxEquipmentSlots = st.maxEquipmentSlots ∧
       (serverUnequipItem st s).1.equippedItems =
         st.equippedItems.set s.toNat Entry.empty) := by
  unfold serverUnequipItem
  split
  · exact Or.inl rfl
  · rename_i hg
    dsimp only
    split
    · exact Or.inl rfl
    · rename_i hv
      right
      have hiv : isValidEquipmentSlot st s = true := by
        cases hiv : isValidEquipmentSlot st s
        · rw [hiv] at hg
          exact absurd rfl hg
        · rfl
      rw [isValidEquipmentSlot, Bool.and_eq_true, decide_eq_true_eq, decide_eq_true_eq] at hiv
      have hg' : 0 ≤ s ∧ s < (st.equippedItems.length : Int) := hiv
      refine ⟨?_, ?_, ?_⟩
      · simp [revoke_storage]
      · simp [revoke_max]
      · simp only
        rw [revoke_equipped hg'.1 hg'.2, List.set_set]

theorem inv_unequip {st : ManagerState} {s : Int} (h : Inv st) :
    Inv (serverUnequipItem st s).1 := by
  rcases unequip_shape st s with heq | ⟨hst', hmax', heq⟩
  · rw [heq]; exact h
  · obtain ⟨items, hst, hN, hOK, hD⟩ := h
    refine ⟨items, by rw [hst', hst], hN, ?_, ?_⟩
    · rw [heq]
      apply idxOKAll_set hOK
      intro hv
      exact absurd hv (by simp [Entry.isValid, Entry.empty])
    · rw [heq]
      apply distinctIdx_set hD
      intro k hk hkn hvk hvv
      exact absurd hvv (by simp [Entry.isValid, Entry.empty])

theorem not_bnot_eq_true {b : Bool} (h : ¬(!b) = true) : b = true := by
  cases b
  · exact absurd rfl h
  · rfl

theorem eq_false_of_not_eq_true {b : Bool} (h : ¬b = true) : b = false := by
  cases b
  · rfl
  · exact absurd rfl h

theorem grant_shape (env : Env) (st : ManagerState) (t : Int) (info : ItemInfo) :
    (grantAbilitiesFromItem env st t info).inventoryStorage = st.inventoryStorage ∧
    (grantAbilitiesFromItem env st t info).maxEquipmentSlots = st.maxEquipmentSlots ∧
    ((grantAbilitiesFromItem env st t info).equippedItems = st.equippedItems ∨
      ∃ v : Entry,
        v.inventorySlotIndex = (st.equippedItems.getD t.toNat Entry.empty).inventorySlotIndex ∧
        v.itemInfo = (st.equippedItems.getD t.toNat Entry.empty).itemInfo ∧
        (grantAbilitiesFromItem env st t info).equippedItems =
          st.equippedItems.set t.toNat v) := by
  unfold grantAbilitiesFromItem
  split
  · exact ⟨rfl, rfl, Or.inl rfl⟩
  · split
    · exact ⟨rfl, rfl, Or.inl rfl⟩
    · dsimp only
      refine ⟨rfl, rfl, Or.inr ⟨_, ?_, ?_, rfl⟩⟩
      · split <;> rfl
      · split <;> rfl

theorem inv_grant {env : Env} {st : ManagerState} {t : Int} {info : ItemInfo}
    (h : Inv st) : Inv (grantAbilitiesFromItem env st t info) := by
  obtain ⟨items, hst, hN, hOK, hD⟩ := h
  obtain ⟨hsto, _, hsh⟩ := grant_shape env st t info
  rcases hsh with heq | ⟨v, hvidx, hvinfo, heq⟩
  · exact ⟨items, by rw [hsto, hst], hN, by rw [heq]; exact hOK, by rw [heq]; exact hD⟩
  · have hval : v.isValid = true →
        (st.equippedItems.getD t.toNat Entry.empty).isValid = true := by
      intro hv
      rw [Entry.isValid] at hv ⊢
      rw [hvidx] at hv
      exact hv
    have hlt : v.isValid = true → t.toNat < st.equippedItems.length := by
      intro hv
      by_cases hlt : t.toNat < st.equippedItems.length
      · exact hlt
      · have := hval hv
        rw [getD_of_length_le (Nat.le_of_not_lt hlt)] at this
        exact absurd this (by simp [Entry.isValid, Entry.empty])
    refine ⟨items, by rw [hsto, hst], hN, ?_, ?_⟩
    · rw [heq]
      apply idxOKAll_set hOK
      intro hv
      rw [hvidx, hvinfo]
      exact hOK t.toNat (hlt hv) (hval hv)
    · rw [heq]
      apply distinctIdx_set hD
      intro k hk hkn hvk hvv
      rw [hvidx]
      exact hD k hk t.toNat (hlt hvv) ⟨hkn, hvk, hval hvv⟩

theorem canEquip_success_facts {env : Env} {tags : List Nat} {st : ManagerState} {i s : Int}
    (h : canEquipItem env tags st i s = .Success) :
    ∃ items, st.inventoryStorage = some items ∧
      0 ≤ i ∧ i < (items.length : Int) ∧
      isItemEquipped st i = false ∧
      0 ≤ equipTargetSlot env st (items.getD i.toNat default) s ∧
      equipTargetSlot env st (items.getD i.toNat default) s < st.maxEquipmentSlots := by
  unfold canEquipItem at h
  split at h
  · exact absurd h (by decide)
  · rename_i items hst
    refine ⟨items, hst, ?_⟩
    split at h
    · exact absurd h (by decide)
    · rename_i hrange
      have hr := not_bnot_eq_true hrange
      rw [Bool.and_eq_true, decide_eq_true_eq, decide_eq_true_eq] at hr
      split at h
      · exact absurd h (by decide)
      · rename_i hneq
        have hneq' := eq_false_of_not_eq_true hneq
        refine ⟨hr.1, hr.2, hneq', ?_⟩
        dsimp only at h
        split at h
        · exact absurd h (by decide)
        · rename_i lyraData hld
          split at h
          · exact absurd h (by decide)
          · split at h
            · exact absurd h (by decide)
            · rename_i targetSlot heq
              split at h
              · exact absurd h (by decide)
              · rename_i hbound
                have hb := eq_false_of_not_eq_true hbound
                rw [Bool.or_eq_false_iff, decide_eq_false_iff_not, decide_eq_false_iff_not,
                  not_lt, not_le] at hb
                by_cases hs : s = AUTO_EQUIP_SLOT
                · rw [if_pos hs] at heq
                  have ht : findAppropriateEquipmentSlot st
                      (getEquippableFragment env
                        ((items.getD i.toNat default).itemId)) s = targetSlot := by
                    by_cases ht0 : findAppropriateEquipmentSlot st
                        (getEquippableFragment env
                          ((items.getD i.toNat default).itemId)) s = INDEX_NONE
                    · rw [if_pos ht0] at heq
                      exact absurd heq (by simp)
                    · rw [if_neg ht0] at heq
                      injection heq
                  rw [equipTargetSlot, if_pos hs, ht]
                  omega
                · rw [if_neg hs] at heq
                  injection heq with heq
                  rw [equipTargetSlot, if_neg hs, heq]
                  omega

theorem equip_noop_of_not_success {env : Env} {tags : List Nat} {st : ManagerState}
    {i s : Int} (h : canEquipItem env tags st i s ≠ .Success) :
    serverEquipItem env tags st i s = (st, []) := by
  unfold serverEquipItem
  rw [if_pos h]

theorem inv_equip {env : Env} {tags : List Nat} {st : ManagerState} {i s : Int}
    (h : Inv st) : Inv (serverEquipItem env tags st i s).1 := by
  by_cases hc : canEquipItem env tags st i s = .Success
  · obtain ⟨items, hst, hi0, hilen, hneq, ht0, htmax⟩ := canEquip_success_facts hc
    obtain ⟨items', hst', hN, hOK, hD⟩ := h
    rw [hst] at hst'
    injection hst' with hii
    subst hii
    unfold serverEquipItem
    rw [if_neg fun hne => hne hc]
    simp only [hst]
    -- the target slot and the populated entry
    have hfresh := isItemEquipped_eq_false hneq
    by_cases hocc :
        (st.equippedItems.getD
          (equipTargetSlot env st (items.getD i.toNat default) s).toNat
            Entry.empty).isValid = true
    · rw [if_pos hocc]
      rcases unequip_shape st (equipTargetSlot env st (items.getD i.toNat default) s)
        with hsh | ⟨hsto1, _, hsh⟩
      · rw [hsh]
        apply inv_grant
        refine ⟨items, hst, hN, ?_, ?_⟩
        · apply idxOKAll_set hOK
          intro _
          exact ⟨hi0, hilen, rfl⟩
        · apply distinctIdx_set hD
          intro k hk hkn hvk _
          exact hfresh k hk hvk
      · apply inv_grant
        rw [hsh]
        have hsto2 :
            (serverUnequipItem st
              (equipTargetSlot env st (items.getD i.toNat default) s)).1.inventoryStorage =
              some items := by rw [hsto1, hst]
        refine ⟨items, hsto2, hN, ?_, ?_⟩
        · apply idxOKAll_set
          · apply idxOKAll_set hOK
            intro hv
            exact absurd hv (by simp [Entry.isValid, Entry.empty])
          · intro _
            exact ⟨hi0, hilen, rfl⟩
        · apply distinctIdx_set
          · apply distinctIdx_set hD
            intro k hk hkn hvk hvv
            exact absurd hvv (by simp [Entry.isValid, Entry.empty])
          · intro k hk hkn hvk _
            rw [List.length_set] at hk
            by_cases hke :
                k = (equipTargetSlot env st (items.getD i.toNat default) s).toNat
            · rw [hke, getD_set_self (by rwa [hke] at hk)] at hvk
              exact absurd hvk (by simp [Entry.isValid, Entry.empty])
            · rw [getD_set_ne fun hh => hke hh.symm] at hvk ⊢
              exact hfresh k hk hvk
    · rw [if_neg hocc]
      apply inv_grant
      refine ⟨items, hst, hN, ?_, ?_⟩
      · apply idxOKAll_set hOK
        intro _
        exact ⟨hi0, hilen, rfl⟩
      · apply distinctIdx_set hD
        intro k hk hkn hvk _
        exact hfresh k hk hvk
  · rw [equip_noop_of_not_success hc]
    exact h

theorem inv_handleStorageUpdate {env : Env} {st : ManagerState} (items : List ItemInfo)
    (hst : st.inventoryStorage = some items)
    (hN : (items.map ItemInfo.itemId).Nodup)
    (hC : cachedDistinct st.equippedItems) :
    Inv (handleStorageUpdate env st) := by
  unfold handleStorageUpdate validateEquippedItems
  simp only [hst]
  rw [syncLyraInstances_eq_map]
  refine ⟨items, rfl, hN, ?_, ?_⟩
  · show idxOKAll items (((reconcileList items st.asc st.equippedItems).2).map
      (syncEntryFun env))
    rw [reconcileList_snd]
    exact idxOKAll_map_sync (reconcile_idxOK items st.equippedItems)
  · show distinctIdx (((reconcileList items st.asc st.equippedItems).2).map
      (syncEntryFun env))
    rw [reconcileList_snd]
    exact distinctIdx_map_sync (reconcile_distinct items st.equippedItems hC)

theorem inv_applyOp {stk : Nat → Bool} {env : Env} {tags : List Nat} {st : ManagerState}
    {op : Op} (hstk : ∀ n, stk n = true) (h : Inv st) :
    Inv (applyOp stk env tags st op) := by
  obtain ⟨items, hst, hN, hOK, hD⟩ := h
  have hC := cachedDistinct_of hN hOK hD
  cases op with
  | add itemId q =>
    simp only [applyOp]
    rw [if_pos (by rw [hst]; rfl)]
    apply inv_handleStorageUpdate (addItemsSpec stk [⟨itemId, q⟩] items)
    · unfold serverAddItem
      simp only [hst]
    · exact addItemsSpec_nodup hstk _ _ hN
    · unfold serverAddItem
      simp only [hst]
      exact hC
  | remove itemId q =>
    simp only [applyOp]
    rw [if_pos (by rw [hst]; rfl)]
    apply inv_handleStorageUpdate (discardItemsSpec [⟨itemId, q⟩] items)
    · unfold serverRemoveItem
      simp only [hst]
    · exact discardItemsSpec_nodup _ _ hN
    · unfold serverRemoveItem
      simp only [hst]
      exact hC
  | discard i q =>
    simp only [applyOp]
    unfold serverDiscardItem
    simp only [hst]
    split
    · exact ⟨items, hst, hN, hOK, hD⟩
    · split
      · exact ⟨items, hst, hN, hOK, hD⟩
      · rw [if_neg (by simp)]
        apply inv_handleStorageUpdate
          (discardItemsSpec
            [⟨(items.getD i.toNat default).itemId,
              min q (items.getD i.toNat default).quantity⟩] items)
        · rfl
        · exact discardItemsSpec_nodup _ _ hN
        · exact hC
  | swap i j =>
    simp only [applyOp]
    unfold serverSwapItems
    simp only [hst]
    split
    · exact ⟨items, hst, hN, hOK, hD⟩
    · split
      · exact ⟨items, hst, hN, hOK, hD⟩
      · rw [if_pos rfl]
        apply inv_handleStorageUpdate
          (addItemsSpec stk
            [items.getD j.toNat default, items.getD i.toNat default]
            (discardItemsSpec
              [items.getD i.toNat default, items.getD j.toNat default] items))
        · rfl
        · exact addItemsSpec_nodup hstk _ _ (discardItemsSpec_nodup _ _ hN)
        · exact cachedDistinct_map_fixup i j hC
  | equip i s => exact inv_equip ⟨items, hst, hN, hOK, hD⟩
  | unequip s => exact inv_unequip ⟨items, hst, hN, hOK, hD⟩

theorem inv_runOps {stk : Nat → Bool} {env : Env} {tags : List Nat}
    (hstk : ∀ n, stk n = true) :
    ∀ (ops : List Op) (st : ManagerState), Inv st → Inv (runOps stk env tags st ops) := by
  intro ops
  induction ops with
  | nil => intro st h; exact h
  | cons op ops ih =>
    intro st h
    unfold runOps
    rw [List.foldl_cons]
    exact ih _ (inv_applyOp hstk h)

theorem isItemEquipped_eq_true_iff (st : ManagerState) (i : Int) :
    isItemEquipped st i = true ↔
      ∃ e ∈ st.equippedItems, e.isValid = true ∧ e.inventorySlotIndex = i := by
  unfold isItemEquipped
  rw [List.any_eq_true]
  constructor
  · rintro ⟨e, hmem, hp⟩
    rw [Bool.and_eq_true] at hp
    exact ⟨e, hmem, hp.1, by simpa using hp.2⟩
  · rintro ⟨e, hmem, hv, hEq⟩
    exact ⟨e, hmem, by rw [Bool.and_eq_true]; exact ⟨hv, by simpa using hEq⟩⟩

theorem fmi_eq_none_of {itemId : Nat} {items : List ItemInfo}
    (h : ∀ x ∈ items, x.itemId ≠ itemId) : firstMatchIdx itemId items = none := by
  induction items with
  | nil => rfl
  | cons x xs ih =>
    simp only [firstMatchIdx]
    rw [if_neg (h x (by simp))]
    rw [ih fun y hy => h y (by simp [hy])]
    rfl

/-! ## Claim C3: slot-selection policy -/

/-- Test fixture: an item-definition environment with an equippable item `0`
carrying no fragment and an equippable item `1` whose fragment requires
slot `0`. -/
def envTest : Env := fun itemId =>
  if itemId = 0 then some ⟨true, false, none⟩
  else if itemId = 1 then some ⟨true, true, some ⟨[some 10, none], [some 20], 0, [5], [], []⟩⟩
  else none

/-- C3: for every fragment `f` and preferred slot `p`,
`FindAppropriateEquipmentSlot(f, p)` returns `f.requiredSlot` whenever `f` is
non-null and `0 ≤ f.requiredSlot < MaxEquipmentSlots`, regardless of
occupancy; returns `INDEX_NONE` when `f.requiredSlot ≥ MaxEquipmentSlots`;
otherwise returns `p` exactly when `p ∈ [0, MaxEquipmentSlots)` and slot `p`
is empty, and `INDEX_NONE` in every remaining case — in particular it never
falls back to the first free slot. (`MaxEquipmentSlots` is positive and the
slot table has that length, as established at `BeginPlay`.) -/
theorem findAppropriateEquipmentSlot_policy (st : ManagerState)
    (frag : Option EquipFragment) (p : Int)
    (hlen : (st.equippedItems.length : Int) = st.maxEquipmentSlots)
    (hmax : 0 < st.maxEquipmentSlots) :
    (∀ f, frag = some f → 0 ≤ f.requiredEquipmentSlot →
      f.requiredEquipmentSlot < st.maxEquipmentSlots →
      findAppropriateEquipmentSlot st frag p = f.requiredEquipmentSlot) ∧
    (∀ f, frag = some f → st.maxEquipmentSlots ≤ f.requiredEquipmentSlot →
      findAppropriateEquipmentSlot st frag p = INDEX_NONE) ∧
    ((frag = none ∨ ∃ f, frag = some f ∧ f.requiredEquipmentSlot < 0) →
      ((0 ≤ p → p < st.maxEquipmentSlots →
        (st.equippedItems.getD p.toNat Entry.empty).isValid = false →
        findAppropriateEquipmentSlot st frag p = p) ∧
       ((¬(0 ≤ p ∧ p < st.maxEquipmentSlots) ∨
         (st.equippedItems.getD p.toNat Entry.empty).isValid = true) →
        findAppropriateEquipmentSlot st frag p = INDEX_NONE))) := by
  refine ⟨?_, ?_, ?_⟩
  · intro f hf h0 hlt
    subst hf
    unfold findAppropriateEquipmentSlot
    dsimp only
    rw [if_pos h0, if_pos hlt]
  · intro f hf hge
    subst hf
    unfold findAppropriateEquipmentSlot
    dsimp only
    rw [if_pos (by omega), if_neg (by omega)]
  · intro hcase
    have hpref :
        (if 0 ≤ p && p < (st.equippedItems.length : Int) then
          if !(st.equippedItems.getD p.toNat Entry.empty).isValid then p
          else INDEX_NONE
        else INDEX_NONE) =
        (if 0 ≤ p ∧ p < st.maxEquipmentSlots then
          if (st.equippedItems.getD p.toNat Entry.empty).isValid = false then p
          else INDEX_NONE
        else INDEX_NONE) := by
      by_cases hr : 0 ≤ p ∧ p < st.maxEquipmentSlots
      · rw [if_pos hr,
          if_pos (by rw [Bool.and_eq_true, decide_eq_true_eq, decide_eq_true_eq]; omega)]
        cases hv : (st.equippedItems.getD p.toNat Entry.empty).isValid
        · rw [if_pos (by decide), if_pos rfl]
        · rw [if_neg (by decide), if_neg (by decide)]
      · rw [if_neg hr,
          if_neg (by rw [Bool.and_eq_true, decide_eq_true_eq, decide_eq_true_eq]; omega)]
    have hgoal : findAppropriateEquipmentSlot st frag p =
        (if 0 ≤ p ∧ p < st.maxEquipmentSlots then
          if (st.equippedItems.getD p.toNat Entry.empty).isValid = false then p
          else INDEX_NONE
        else INDEX_NONE) := by
      rcases hcase with hf | ⟨f, hf, hneg⟩
      · subst hf
        unfold findAppropriateEquipmentSlot
        dsimp only
        exact hpref
      · subst hf
        unfold findAppropriateEquipmentSlot
        dsimp only
        rw [if_neg (by omega)]
        exact hpref
    constructor
    · intro hp0 hplt hempty
      rw [hgoal, if_pos ⟨hp0, hplt⟩, if_pos hempty]
    · intro hbad
      rcases hbad with hout | hval
      · rw [hgoal, if_neg hout]
      · by_cases hr : 0 ≤ p ∧ p < st.maxEquipmentSlots
        · rw [hgoal, if_pos hr, if_neg (by rw [hval]; decide)]
        · rw [hgoal, if_neg hr]

/-- Concrete state for the C3 witness: three slots, slot 1 occupied. -/
def stC3 : ManagerState :=
  { inventoryStorage := some [⟨0, 1⟩, ⟨1, 1⟩]
    equippedItems :=
      [Entry.empty,
       { Entry.empty with inventorySlotIndex := 0, itemInfo := ⟨0, 1⟩ },
       Entry.empty]
    maxEquipmentSlots := 3
    asc := none }

/-- Witness for C3 at a concrete state: a fragment requiring slot 2 wins over
an occupied preferred slot, and the occupied preferred slot 1 yields
`INDEX_NONE` for a fragment-less item. -/
theorem findAppropriateEquipmentSlot_policy_witness :
    findAppropriateEquipmentSlot stC3 (some ⟨[], [], 2, [], [], []⟩) 1 = 2 ∧
    findAppropriateEquipmentSlot stC3 none 1 = INDEX_NONE := by
  constructor
  · exact (findAppropriateEquipmentSlot_policy stC3 (some ⟨[], [], 2, [], [], []⟩) 1
      (by decide) (by decide)).1 _ rfl (by decide) (by decide)
  · exact ((findAppropriateEquipmentSlot_policy stC3 none 1
      (by decide) (by decide)).2.2 (Or.inl rfl)).2 (Or.inr (by decide))

/-! ## Claim C6: equip failure atomicity -/

/-- C6: whenever `CanEquipItem(i, s)` returns any result other than
`Success`, `Server_EquipItem(i, s)` leaves the whole manager state unchanged
(every slot entry, the storage reference and the ability collaborator) and
emits no `OnItemEquipped` or `OnItemUnequipped` event; no storage mutation is
forwarded (the equip path contains no storage call at all). -/
theorem equip_failure_atomicity (env : Env) (tags : List Nat) (st : ManagerState)
    (i s : Int) (h : canEquipItem env tags st i s ≠ .Success) :
    serverEquipItem env tags st i s = (st, []) := by
  unfold serverEquipItem
  rw [if_pos h]

/-- Unbound-storage state for the C6 witness. -/
def stNoStorage : ManagerState :=
  { inventoryStorage := none
    equippedItems := [Entry.empty]
    maxEquipmentSlots := 3
    asc := none }

/-- Witness for C6: equipping from an unbound storage fails with
`StorageNotReady` and changes nothing. -/
theorem equip_failure_atomicity_witness :
    serverEquipItem envTest [] stNoStorage 0 0 = (stNoStorage, []) :=
  equip_failure_atomicity envTest [] stNoStorage 0 0 (by decide)

/-! ## Claim C9: unequip idempotence -/

/-- C9: unequip of an out-of-range slot or an empty entry changes no state
and emits no event; unequip twice in a row leaves the state of a single
unequip and the second call emits nothing, so at most one `OnItemUnequipped`
fires across the pair. -/
theorem unequip_idempotence (st : ManagerState) (s : Int) :
    ((isValidEquipmentSlot st s = false ∨
        (st.equippedItems.getD s.toNat Entry.empty).isValid = false) →
      serverUnequipItem st s = (st, [])) ∧
    serverUnequipItem (serverUnequipItem st s).1 s = ((serverUnequipItem st s).1, []) := by
  have noop : ∀ st' : ManagerState,
      (isValidEquipmentSlot st' s = false ∨
        (st'.equippedItems.getD s.toNat Entry.empty).isValid = false) →
      serverUnequipItem st' s = (st', []) := by
    intro st' hcase
    unfold serverUnequipItem
    rcases hcase with hslot | hval
    · rw [if_pos (by rw [hslot]; rfl)]
    · by_cases hslot : isValidEquipmentSlot st' s = true
      · rw [if_neg (by rw [hslot]; decide)]
        dsimp only
        rw [if_pos (by rw [hval]; rfl)]
      · rw [if_pos (by rw [eq_false_of_not_eq_true hslot]; rfl)]
  refine ⟨noop st, ?_⟩
  by_cases hslot : isValidEquipmentSlot st s = true
  · by_cases hval : (st.equippedItems.getD s.toNat Entry.empty).isValid = true
    · have hiv := hslot
      rw [isValidEquipmentSlot, Bool.and_eq_true, decide_eq_true_eq,
        decide_eq_true_eq] at hiv
      have hn : s.toNat < st.equippedItems.length := by omega
      have hfst : (serverUnequipItem st s).1.equippedItems =
          st.equippedItems.set s.toNat Entry.empty := by
        unfold serverUnequipItem
        rw [if_neg (by rw [hslot]; decide)]
        dsimp only
        rw [if_neg (by rw [hval]; decide)]
        dsimp only
        rw [revoke_equipped hiv.1 hiv.2, List.set_set]
      apply noop
      right
      rw [hfst, getD_set_self hn]
      rfl
    · have hvf := eq_false_of_not_eq_true hval
      rw [noop st (Or.inr hvf)]
      exact noop st (Or.inr hvf)
  · have hsf := eq_false_of_not_eq_true hslot
    rw [noop st (Or.inl hsf)]
    exact noop st (Or.inl hsf)

/-- State with one equipped entry for the C9 witness. -/
def stC9 : ManagerState :=
  { inventoryStorage := some [⟨0, 1⟩]
    equippedItems := [{ Entry.empty with inventorySlotIndex := 0, itemInfo := ⟨0, 1⟩ }]
    maxEquipmentSlots := 1
    asc := none }

/-- Witness for C9: unequip of the out-of-range slot 5 is a no-op, and a
double unequip of slot 0 equals a single one with no second event. -/
theorem unequip_idempotence_witness :
    serverUnequipItem stC9 5 = (stC9, []) ∧
    serverUnequipItem (serverUnequipItem stC9 0).1 0 = ((serverUnequipItem stC9 0).1, []) :=
  ⟨(unequip_idempotence stC9 5).1 (Or.inl (by decide)),
   (unequip_idempotence stC9 0).2⟩

/-! ## Claim C7: discard equipped-protection -/

/-- C7: with storage ready and index `i` in range, if any slot entry records
storage index `i` then `Server_DiscardItem(i, q)` forwards nothing and changes
nothing; otherwise it forwards exactly one remove of
`min(q, storage[i].quantity)` of the item at `i` by identifier, and the slot
table is untouched either way. -/
theorem discard_equipped_protection (st : ManagerState) (i q : Int)
    (items : List ItemInfo) (hst : st.inventoryStorage = some items)
    (h0 : 0 ≤ i) (hlen : i < (items.length : Int)) :
    ((∃ e ∈ st.equippedItems, e.inventorySlotIndex = i) →
      serverDiscardItem st i q = (st, [])) ∧
    ((∀ e ∈ st.equippedItems, e.inventorySlotIndex ≠ i) →
      (serverDiscardItem st i q).2 =
        [⟨(items.getD i.toNat default).itemId,
          min q (items.getD i.toNat default).quantity⟩] ∧
      (serverDiscardItem st i q).1.inventoryStorage =
        some (discardItemsSpec
          [⟨(items.getD i.toNat default).itemId,
            min q (items.getD i.toNat default).quantity⟩] items) ∧
      (serverDiscardItem st i q).1.equippedItems = st.equippedItems) := by
  unfold serverDiscardItem
  simp only [hst]
  rw [if_neg (by
    rw [Bool.not_eq_true', Bool.not_eq_false, Bool.and_eq_true,
      decide_eq_true_eq, decide_eq_true_eq]
    exact ⟨h0, hlen⟩)]
  constructor
  · rintro ⟨e, hmem, hEq⟩
    rw [if_pos (by
      rw [List.any_eq_true]
      exact ⟨e, hmem, by simpa using hEq⟩)]
  · intro hnone
    rw [if_neg (by
      rw [List.any_eq_true]
      rintro ⟨e, hmem, hEq⟩
      exact hnone e hmem (by simpa using hEq))]
    exact ⟨rfl, rfl, rfl⟩

/-- State for the C7 witness: item at storage index 0 equipped, index 1 free. -/
def stC7 : ManagerState :=
  { inventoryStorage := some [⟨0, 5⟩, ⟨1, 2⟩]
    equippedItems := [{ Entry.empty with inventorySlotIndex := 0, itemInfo := ⟨0, 5⟩ }]
    maxEquipmentSlots := 1
    asc := none }

/-- Witness for C7: discarding the equipped index 0 is refused; discarding
3 of the 2-stack at index 1 forwards a clamped remove of 2. -/
theorem discard_equipped_protection_witness :
    serverDiscardItem stC7 0 1 = (stC7, []) ∧
    (serverDiscardItem stC7 1 3).2 = [⟨1, 2⟩] :=
  ⟨(discard_equipped_protection stC7 0 1 [⟨0, 5⟩, ⟨1, 2⟩] rfl (by decide) (by decide)).1
      ⟨{ Entry.empty with inventorySlotIndex := 0, itemInfo := ⟨0, 5⟩ }, by decide, by decide⟩,
    by
      have := (discard_equipped_protection stC7 1 3 [⟨0, 5⟩, ⟨1, 2⟩] rfl (by decide)
        (by decide)).2 (by decide)
      exact this.1⟩

/-! ## Claim C8: the revoke protocol -/

theorem revoke_noop {st : ManagerState} {s : Int}
    (h : s < 0 ∨ (st.equippedItems.length : Int) ≤ s) :
    revokeAbilitiesFromItem st s = st := by
  unfold revokeAbilitiesFromItem
  rw [if_pos (by
    rw [Bool.or_eq_true, decide_eq_true_eq, decide_eq_true_eq]
    exact h)]

theorem revoke_eq {st : ManagerState} {s : Int}
    (h0 : 0 ≤ s) (hl : s < (st.equippedItems.length : Int)) :
    revokeAbilitiesFromItem st s =
      { st with
        asc := (revokeHandles st.asc (st.equippedItems.getD s.toNat Entry.empty)).1
        equippedItems := st.equippedItems.set s.toNat
          { st.equippedItems.getD s.toNat Entry.empty with
            grantedAbilityHandles := [], appliedEffectHandles := [], grantedTags := [] } } := by
  unfold revokeAbilitiesFromItem
  rw [if_neg (by
    rw [Bool.or_eq_true, decide_eq_true_eq, decide_eq_true_eq]
    omega)]
  dsimp only
  rw [revokeHandles_snd]

theorem revokeHandles_fst_some (a : ASCState) (e : Entry) :
    (revokeHandles (some a) e).1 =
      some { abilities := a.abilities.diff e.grantedAbilityHandles
             effects := a.effects.diff e.appliedEffectHandles
             looseTags := a.looseTags.diff e.grantedTags } := by
  unfold revokeHandles
  dsimp only
  by_cases hT : e.grantedTags.length > 0
  · rw [if_pos hT]
    simp only [List.diff_eq_foldl]
  · rw [if_neg hT]
    have hnil : e.grantedTags = [] := by
      cases hgt : e.grantedTags with
      | nil => rfl
      | cons x xs => exact absurd (by rw [hgt]; simp) hT
    rw [hnil]
    simp only [List.diff_eq_foldl]
    rfl

theorem revokeHandles_cleared_fst (asc : Option ASCState) (e : Entry)
    (h1 : e.grantedAbilityHandles = []) (h2 : e.appliedEffectHandles = [])
    (h3 : e.grantedTags = []) : (revokeHandles asc e).1 = asc := by
  cases asc with
  | none => rfl
  | some a =>
    unfold revokeHandles
    dsimp only
    rw [h1, h2, h3]
    rw [if_neg (by simp)]
    rfl

/-- C8: `RevokeAbilitiesFromItem(s)` is idempotent — a second run changes
neither the slot table nor the ability collaborator; with the collaborator
absent it still empties the entry's three handle/tag lists and the
collaborator reference stays absent; with the collaborator present it removes
exactly the stored ability handles, exactly the stored effect handles and
exactly the recorded loose tags from the collaborator, and empties the three
lists on the entry. -/
theorem revoke_protocol (st : ManagerState) (s : Int) :
    revokeAbilitiesFromItem (revokeAbilitiesFromItem st s) s =
      revokeAbilitiesFromItem st s ∧
    (st.asc = none → (revokeAbilitiesFromItem st s).asc = none) ∧
    (0 ≤ s → s < (st.equippedItems.length : Int) →
      (revokeAbilitiesFromItem st s).equippedItems =
        st.equippedItems.set s.toNat
          { st.equippedItems.getD s.toNat Entry.empty with
            grantedAbilityHandles := [], appliedEffectHandles := [], grantedTags := [] } ∧
      ∀ a, st.asc = some a →
        (revokeAbilitiesFromItem st s).asc =
          some { abilities := a.abilities.diff
                   (st.equippedItems.getD s.toNat Entry.empty).grantedAbilityHandles
                 effects := a.effects.diff
                   (st.equippedItems.getD s.toNat Entry.empty).appliedEffectHandles
                 looseTags := a.looseTags.diff
                   (st.equippedItems.getD s.toNat Entry.empty).grantedTags }) := by
  refine ⟨?_, ?_, ?_⟩
  · by_cases hg : s < 0 ∨ (st.equippedItems.length : Int) ≤ s
    · rw [revoke_noop hg, revoke_noop hg]
    · have h0 : 0 ≤ s := by omega
      have hl : s < (st.equippedItems.length : Int) := by omega
      have hn : s.toNat < st.equippedItems.length := by omega
      rw [revoke_eq h0 hl]
      have hl' : s < (((st.equippedItems.set s.toNat
          { st.equippedItems.getD s.toNat Entry.empty with
            grantedAbilityHandles := [], appliedEffectHandles := [],
            grantedTags := [] }).length : Nat) : Int) := by
        rw [List.length_set]
        exact hl
      rw [revoke_eq h0 hl']
      dsimp only
      rw [getD_set_self hn]
      rw [revokeHandles_cleared_fst _ _ rfl rfl rfl]
      rw [List.set_set]
  · intro hasc
    by_cases hg : s < 0 ∨ (st.equippedItems.length : Int) ≤ s
    · rw [revoke_noop hg]
      exact hasc
    · rw [revoke_eq (by omega) (by omega)]
      dsimp only
      rw [hasc]
      rfl
  · intro h0 hl
    rw [revoke_eq h0 hl]
    refine ⟨rfl, ?_⟩
    intro a hasc
    dsimp only
    rw [hasc, revokeHandles_fst_some]

/-- State for the C8 witness: slot 0 holds an entry with granted handles;
the collaborator holds those handles plus others. -/
def stC8 : ManagerState :=
  { inventoryStorage := some [⟨0, 1⟩]
    equippedItems :=
      [{ inventorySlotIndex := 0, itemInfo := ⟨0, 1⟩, lyraInstance := none
         grantedAbilityHandles := [10], appliedEffectHandles := [20], grantedTags := [5] }]
    maxEquipmentSlots := 1
    asc := some { abilities := [10, 99], effects := [20], looseTags := [5, 5] } }

/-- Witness for C8 at a concrete state: double revoke equals single revoke,
and the collaborator keeps exactly the handles the entry did not own. -/
theorem revoke_protocol_witness :
    revokeAbilitiesFromItem (revokeAbilitiesFromItem stC8 0) 0 =
      revokeAbilitiesFromItem stC8 0 ∧
    (revokeAbilitiesFromItem stC8 0).asc =
      some { abilities := [99], effects := [], looseTags := [5] } := by
  constructor
  · exact (revoke_protocol stC8 0).1
  · have h := ((revoke_protocol stC8 0).2.2 (by decide) (by decide)).2
      { abilities := [10, 99], effects := [20], looseTags := [5, 5] } rfl
    rw [h]
    rfl

/-! ## Claim C10: in-bounds safety of the unchecked equip indexing -/

/-- C10: whenever `Server_EquipItem(i, s)` proceeds past
`CanEquipItem(i, s) = Success` with unchanged state, the target slot it
recomputes (`s` itself, or `FindAppropriateEquipmentSlot` when `s` is
`AUTO_EQUIP_SLOT`) is never `INDEX_NONE` and lies in
`[0, MaxEquipmentSlots)`; with the slot table sized `MaxEquipmentSlots` (as
`BeginPlay` guarantees) the unguarded `EquippedItems[TargetSlot]` accesses
are therefore in bounds. -/
theorem equip_target_slot_in_bounds (env : Env) (tags : List Nat) (st : ManagerState)
    (i s : Int) (items : List ItemInfo)
    (hst : st.inventoryStorage = some items)
    (hlen : (st.equippedItems.length : Int) = st.maxEquipmentSlots)
    (hsucc : canEquipItem env tags st i s = .Success) :
    equipTargetSlot env st (items.getD i.toNat default) s ≠ INDEX_NONE ∧
    0 ≤ equipTargetSlot env st (items.getD i.toNat default) s ∧
    equipTargetSlot env st (items.getD i.toNat default) s < st.maxEquipmentSlots ∧
    (equipTargetSlot env st (items.getD i.toNat default) s).toNat <
      st.equippedItems.length := by
  obtain ⟨items', hst', _, _, _, ht0, htmax⟩ := canEquip_success_facts hsucc
  rw [hst] at hst'
  injection hst' with hii
  subst hii
  refine ⟨?_, ht0, htmax, by omega⟩
  intro hEq
  rw [hEq] at ht0
  exact absurd ht0 (by norm_num [INDEX_NONE])

/-- State for the C10 witness: two storage items, empty three-slot table. -/
def stC10 : ManagerState :=
  { inventoryStorage := some [⟨0, 1⟩, ⟨1, 1⟩]
    equippedItems := [Entry.empty, Entry.empty, Entry.empty]
    maxEquipmentSlots := 3
    asc := none }

/-- Witness for C10: equipping item 1 with automatic slot selection succeeds
and the recomputed target slot is in bounds. -/
theorem equip_target_slot_in_bounds_witness :
    equipTargetSlot envTest stC10 (([⟨0, 1⟩, ⟨1, 1⟩] : List ItemInfo).getD
      (1 : Int).toNat default) AUTO_EQUIP_SLOT ≠ INDEX_NONE ∧
    0 ≤ equipTargetSlot envTest stC10 (([⟨0, 1⟩, ⟨1, 1⟩] : List ItemInfo).getD
      (1 : Int).toNat default) AUTO_EQUIP_SLOT ∧
    equipTargetSlot envTest stC10 (([⟨0, 1⟩, ⟨1, 1⟩] : List ItemInfo).getD
      (1 : Int).toNat default) AUTO_EQUIP_SLOT < stC10.maxEquipmentSlots ∧
    (equipTargetSlot envTest stC10 (([⟨0, 1⟩, ⟨1, 1⟩] : List ItemInfo).getD
      (1 : Int).toNat default) AUTO_EQUIP_SLOT).toNat < stC10.equippedItems.length :=
  equip_target_slot_in_bounds envTest [] stC10 1 AUTO_EQUIP_SLOT [⟨0, 1⟩, ⟨1, 1⟩]
    rfl (by decide) (by decide)

/-! ## Claim C1 (corrected): the `AlreadyEquipped` check is index-based -/

/-- Storage with two stacks of the same identifier for the C1 counterexample. -/
def itemsC1 : List ItemInfo := [⟨0, 1⟩, ⟨0, 1⟩]

/-- State for the C1 counterexample: identifier 0 sits at storage indices 0
and 1; the entry in slot 0 is valid, records storage index 0 and caches
identifier 0. -/
def stC1 : ManagerState :=
  { inventoryStorage := some itemsC1
    equippedItems :=
      [{ Entry.empty with inventorySlotIndex := 0, itemInfo := ⟨0, 1⟩ },
       Entry.empty, Entry.empty]
    maxEquipmentSlots := 3
    asc := none }

/-- C1 counterexample: for storage index 1 the earlier checks pass and the
identifier of `storage[1]` is cached by a valid slot entry, yet
`CanEquipItem(1, 0)` does not return `AlreadyEquipped` (it returns
`Success`), refuting the identifier-based reading of step 3. -/
theorem canEquip_alreadyEquipped_cex :
    validateStorageReady stC1 = true ∧
    validateInventorySlot stC1 1 = true ∧
    (∃ e ∈ stC1.equippedItems, e.isValid = true ∧
      e.itemInfo.itemId = (itemsC1.getD (1 : Int).toNat default).itemId) ∧
    canEquipItem envTest [] stC1 1 0 = .Success ∧
    canEquipItem envTest [] stC1 1 0 ≠ .AlreadyEquipped := by decide

/-- C1 (amended): with storage ready and `i` in range, `CanEquipItem(i, s)`
returns `AlreadyEquipped` exactly when some valid slot entry currently
records storage index `i`, regardless of that entry's cached identifier. -/
theorem canEquip_alreadyEquipped_iff_index (env : Env) (tags : List Nat)
    (st : ManagerState) (i s : Int) (items : List ItemInfo)
    (hst : st.inventoryStorage = some items)
    (h0 : 0 ≤ i) (hlen : i < (items.length : Int)) :
    canEquipItem env tags st i s = .AlreadyEquipped ↔
      ∃ e ∈ st.equippedItems, e.isValid = true ∧ e.inventorySlotIndex = i := by
  have hrange : ¬(!(decide (0 ≤ i) && decide (i < (items.length : Int)))) = true := by
    rw [Bool.not_eq_true', Bool.not_eq_false, Bool.and_eq_true,
      decide_eq_true_eq, decide_eq_true_eq]
    exact ⟨h0, hlen⟩
  constructor
  · intro hres
    by_cases hIsEq : isItemEquipped st i = true
    · exact (isItemEquipped_eq_true_iff st i).mp hIsEq
    · exfalso
      have hf := eq_false_of_not_eq_true hIsEq
      unfold canEquipItem at hres
      rw [hst] at hres
      dsimp only at hres
      rw [if_neg hrange, if_neg (by rw [hf]; decide)] at hres
      repeat' split at hres
      all_goals exact absurd hres (by decide)
  · intro hex
    have hIsEq : isItemEquipped st i = true := (isItemEquipped_eq_true_iff st i).mpr hex
    unfold canEquipItem
    rw [hst]
    dsimp only
    rw [if_neg hrange, if_pos hIsEq]

/-- State for the C1 amended witness: distinct identifiers, index 0 equipped. -/
def stC1w : ManagerState :=
  { inventoryStorage := some [⟨0, 1⟩, ⟨1, 1⟩]
    equippedItems :=
      [{ Entry.empty with inventorySlotIndex := 0, itemInfo := ⟨0, 1⟩ },
       Entry.empty, Entry.empty]
    maxEquipmentSlots := 3
    asc := none }

/-- Witness for the amended C1: equipping storage index 0 again reports
`AlreadyEquipped` because a valid entry records index 0. -/
theorem canEquip_alreadyEquipped_iff_index_witness :
    canEquipItem envTest [] stC1w 0 0 = .AlreadyEquipped :=
  (canEquip_alreadyEquipped_iff_index envTest [] stC1w 0 0 [⟨0, 1⟩, ⟨1, 1⟩]
    rfl (by decide) (by decide)).mpr
    ⟨{ Entry.empty with inventorySlotIndex := 0, itemInfo := ⟨0, 1⟩ },
      by decide, by decide, by decide⟩

/-! ## Claim C4: reconciler resync -/

/-- C4: one `ValidateEquippedItems` tick maps every slot entry as follows —
an invalid entry is untouched; a valid entry whose cached identifier first
occurs in current storage at index `j` records `j` and refreshes its cached
snapshot from `storage[j]`; a valid entry whose identifier no longer occurs
anywhere is reset to the empty entry (hence, an identifier removed from
storage while equipped is unequipped within one cycle). The grants of the
vanished entries — and only those — are revoked against the collaborator, in
slot order. -/
theorem reconciler_resync (st : ManagerState) (items : List ItemInfo)
    (hst : st.inventoryStorage = some items) :
    (validateEquippedItems st).equippedItems.length = st.equippedItems.length ∧
    (∀ k, k < st.equippedItems.length →
      ((st.equippedItems.getD k Entry.empty).isValid = false →
        (validateEquippedItems st).equippedItems.getD k Entry.empty =
          st.equippedItems.getD k Entry.empty) ∧
      (∀ j, (st.equippedItems.getD k Entry.empty).isValid = true →
        firstMatchIdx (st.equippedItems.getD k Entry.empty).itemInfo.itemId items =
          some j →
        (validateEquippedItems st).equippedItems.getD k Entry.empty =
          { st.equippedItems.getD k Entry.empty with
            inventorySlotIndex := (j : Int), itemInfo := items.getD j default }) ∧
      ((st.equippedItems.getD k Entry.empty).isValid = true →
        (∀ x ∈ items,
          x.itemId ≠ (st.equippedItems.getD k Entry.empty).itemInfo.itemId) →
        (validateEquippedItems st).equippedItems.getD k Entry.empty = Entry.empty)) ∧
    (validateEquippedItems st).asc =
      (st.equippedItems.filter fun e =>
        e.isValid && (firstMatchIdx e.itemInfo.itemId items).isNone).foldl
        (fun a e => (revokeHandles a e).1) st.asc := by
  have hequip : (validateEquippedItems st).equippedItems =
      st.equippedItems.map (reconEntryFun items) := by
    unfold validateEquippedItems
    rw [hst]
    dsimp only
    rw [reconcileList_snd]
  have hasc : (validateEquippedItems st).asc =
      (st.equippedItems.filter fun e =>
        e.isValid && (firstMatchIdx e.itemInfo.itemId items).isNone).foldl
        (fun a e => (revokeHandles a e).1) st.asc := by
    unfold validateEquippedItems
    rw [hst]
    dsimp only
    rw [reconcileList_fst]
  refine ⟨by rw [hequip, List.length_map], ?_, hasc⟩
  intro k hk
  refine ⟨?_, ?_, ?_⟩
  · intro hinv
    rw [hequip, getD_map_of_lt hk (c := Entry.empty), reconEntryFun_invalid hinv]
  · intro j hv hm
    rw [hequip, getD_map_of_lt hk (c := Entry.empty), reconEntryFun_found hv hm]
  · intro hv hnone
    rw [hequip, getD_map_of_lt hk (c := Entry.empty),
      reconEntryFun_vanished hv (fmi_eq_none_of hnone)]

/-- State for the C4 witness: the entry in slot 0 caches identifier 0 at a
stale index 1, the entry in slot 1 caches the vanished identifier 7. -/
def stC4 : ManagerState :=
  { inventoryStorage := some [⟨3, 1⟩, ⟨0, 2⟩]
    equippedItems :=
      [{ Entry.empty with inventorySlotIndex := 1, itemInfo := ⟨0, 1⟩ },
       { inventorySlotIndex := 0, itemInfo := ⟨7, 1⟩, lyraInstance := none
         grantedAbilityHandles := [10], appliedEffectHandles := [], grantedTags := [] }]
    maxEquipmentSlots := 2
    asc := some { abilities := [10], effects := [], looseTags := [] } }

/-- Witness for C4: the stale entry is re-bound to the first storage index
carrying its identifier, the vanished entry is reset, and the vanished
entry's ability handle is revoked from the collaborator. -/
theorem reconciler_resync_witness :
    (validateEquippedItems stC4).equippedItems.getD 0 Entry.empty =
      { stC4.equippedItems.getD 0 Entry.empty with
        inventorySlotIndex := ((1 : Nat) : Int),
        itemInfo := (([⟨3, 1⟩, ⟨0, 2⟩] : List ItemInfo).getD 1 default) } ∧
    (validateEquippedItems stC4).equippedItems.getD 1 Entry.empty = Entry.empty := by
  constructor
  · exact ((reconciler_resync stC4 [⟨3, 1⟩, ⟨0, 2⟩] rfl).2.1 0 (by decide)).2.1 1
      (by decide) (by decide)
  · exact ((reconciler_resync stC4 [⟨3, 1⟩, ⟨0, 2⟩] rfl).2.1 1 (by decide)).2.2
      (by decide) (by decide)

/-! ## Claim C5: swap-fixup and its involution -/

theorem fixupEntry_invalid {f t : Int} {e : Entry} (h : e.isValid = false) :
    fixupEntry f t e = e := by
  unfold fixupEntry
  rw [if_pos (by rw [h]; rfl)]

theorem fixupEntry_from {f t : Int} {e : Entry} (hv : e.isValid = true)
    (hEq : e.inventorySlotIndex = f) :
    fixupEntry f t e = { e with inventorySlotIndex := t } := by
  unfold fixupEntry
  rw [if_neg (by rw [hv]; decide), if_pos hEq]

theorem fixupEntry_to {f t : Int} {e : Entry} (hv : e.isValid = true)
    (hne : e.inventorySlotIndex ≠ f) (hEq : e.inventorySlotIndex = t) :
    fixupEntry f t e = { e with inventorySlotIndex := f } := by
  unfold fixupEntry
  rw [if_neg (by rw [hv]; decide), if_neg hne, if_pos hEq]

theorem fixupEntry_other {f t : Int} {e : Entry} (hv : e.isValid = true)
    (h1 : e.inventorySlotIndex ≠ f) (h2 : e.inventorySlotIndex ≠ t) :
    fixupEntry f t e = e := by
  unfold fixupEntry
  rw [if_neg (by rw [hv]; decide), if_neg h1, if_neg h2]

theorem fixupEntry_invol {f t : Int} (hf0 : 0 ≤ f) (ht0 : 0 ≤ t) (hne : f ≠ t)
    (e : Entry) : fixupEntry f t (fixupEntry f t e) = e := by
  cases hv : e.isValid
  · rw [fixupEntry_invalid hv, fixupEntry_invalid hv]
  · by_cases h1 : e.inventorySlotIndex = f
    · rw [fixupEntry_from hv h1]
      rw [fixupEntry_to
        (by simp only [Entry.isValid, bne_iff_ne, ne_eq, decide_eq_true_eq]; omega)
        (by simp only; exact fun hh => hne hh.symm) (by simp only)]
      rw [← h1]
    · by_cases h2 : e.inventorySlotIndex = t
      · rw [fixupEntry_to hv h1 h2]
        rw [fixupEntry_from
          (by simp only [Entry.isValid, bne_iff_ne, ne_eq, decide_eq_true_eq]; omega)
          (by simp only)]
        rw [← h2]
      · rw [fixupEntry_other hv h1 h2, fixupEntry_other hv h1 h2]

theorem serverSwapItems_eq {stk : Nat → Bool} {st : ManagerState} {f t : Int}
    {items : List ItemInfo} (hst : st.inventoryStorage = some items)
    (hne : f ≠ t) (hf0 : 0 ≤ f) (hflen : f < (items.length : Int))
    (ht0 : 0 ≤ t) (htlen : t < (items.length : Int)) :
    serverSwapItems stk st f t =
      ({ st with
          inventoryStorage := some (addItemsSpec stk
            [items.getD t.toNat default, items.getD f.toNat default]
            (discardItemsSpec
              [items.getD f.toNat default, items.getD t.toNat default] items))
          equippedItems := st.equippedItems.map (fixupEntry f t) }, true) := by
  unfold serverSwapItems
  rw [hst]
  dsimp only
  rw [if_neg hne]
  rw [if_neg (by
    rw [Bool.not_eq_true', Bool.not_eq_false, Bool.and_eq_true, Bool.and_eq_true,
      Bool.and_eq_true, decide_eq_true_eq, decide_eq_true_eq, decide_eq_true_eq,
      decide_eq_true_eq]
    exact ⟨⟨hf0, hflen⟩, ht0, htlen⟩)]
  rfl

/-- C5: after `Server_SwapItems(f, t)` with distinct in-range indices, every
valid slot entry that recorded `f` records `t`, every valid entry that
recorded `t` records `f`, and every other entry is unchanged; applying the
fixup twice with the same pair is the identity on the slot table, and a
second swap with the same indices (in range of the re-added storage) restores
the equipped back-references. -/
theorem swap_fixup_backrefs (stk : Nat → Bool) (st : ManagerState) (f t : Int)
    (items : List ItemInfo) (hst : st.inventoryStorage = some items)
    (hne : f ≠ t) (hf0 : 0 ≤ f) (hflen : f < (items.length : Int))
    (ht0 : 0 ≤ t) (htlen : t < (items.length : Int)) :
    (serverSwapItems stk st f t).1.equippedItems.length = st.equippedItems.length ∧
    (∀ k, k < st.equippedItems.length →
      ((st.equippedItems.getD k Entry.empty).isValid = false →
        (serverSwapItems stk st f t).1.equippedItems.getD k Entry.empty =
          st.equippedItems.getD k Entry.empty) ∧
      ((st.equippedItems.getD k Entry.empty).isValid = true →
        ((st.equippedItems.getD k Entry.empty).inventorySlotIndex = f →
          (serverSwapItems stk st f t).1.equippedItems.getD k Entry.empty =
            { st.equippedItems.getD k Entry.empty with inventorySlotIndex := t }) ∧
        ((st.equippedItems.getD k Entry.empty).inventorySlotIndex = t →
          (serverSwapItems stk st f t).1.equippedItems.getD k Entry.empty =
            { st.equippedItems.getD k Entry.empty with inventorySlotIndex := f }) ∧
        ((st.equippedItems.getD k Entry.empty).inventorySlotIndex ≠ f →
         (st.equippedItems.getD k Entry.empty).inventorySlotIndex ≠ t →
          (serverSwapItems stk st f t).1.equippedItems.getD k Entry.empty =
            st.equippedItems.getD k Entry.empty))) ∧
    (updateEquippedIndicesAfterSwap (updateEquippedIndicesAfterSwap st f t) f t).equippedItems
      = st.equippedItems ∧
    (∀ items2, (serverSwapItems stk st f t).1.inventoryStorage = some items2 →
      f < (items2.length : Int) → t < (items2.length : Int) →
      (serverSwapItems stk (serverSwapItems stk st f t).1 f t).1.equippedItems =
        st.equippedItems) := by
  have hswap := @serverSwapItems_eq stk st f t items hst hne hf0 hflen ht0 htlen
  have hmapmap : ∀ es : List Entry,
      (es.map (fixupEntry f t)).map (fixupEntry f t) = es := by
    intro es
    rw [List.map_map]
    have : ∀ e ∈ es, (fixupEntry f t ∘ fixupEntry f t) e = id e := by
      intro e _
      exact fixupEntry_invol hf0 ht0 hne e
    rw [List.map_congr_left this, List.map_id]
  refine ⟨?_, ?_, ?_, ?_⟩
  · rw [hswap]
    exact List.length_map _ _
  · intro k hk
    rw [hswap]
    dsimp only
    rw [getD_map_of_lt hk (c := Entry.empty)]
    refine ⟨fun hinv => fixupEntry_invalid hinv, fun hv => ⟨?_, ?_, ?_⟩⟩
    · intro hEq
      exact fixupEntry_from hv hEq
    · intro hEq
      exact fixupEntry_to hv (by rw [hEq]; exact fun hh => hne hh.symm) hEq
    · intro h1 h2
      exact fixupEntry_other hv h1 h2
  · unfold updateEquippedIndicesAfterSwap
    dsimp only
    exact hmapmap st.equippedItems
  · intro items2 hsto2 hflen2 htlen2
    have hsto2' : (serverSwapItems stk st f t).1.inventoryStorage = some items2 := hsto2
    have hswap2 := @serverSwapItems_eq stk (serverSwapItems stk st f t).1 f t items2
      hsto2' hne hf0 hflen2 ht0 htlen2
    rw [hswap2]
    dsimp only
    rw [hswap]
    dsimp only
    exact hmapmap st.equippedItems

/-- State for the C5 witness: two distinct items, the first equipped. -/
def stC5 : ManagerState :=
  { inventoryStorage := some [⟨0, 1⟩, ⟨1, 1⟩]
    equippedItems := [{ Entry.empty with inventorySlotIndex := 0, itemInfo := ⟨0, 1⟩ }]
    maxEquipmentSlots := 1
    asc := none }

/-- Witness for C5: swapping storage indices 0 and 1 moves the equipped
back-reference from 0 to 1, and a second swap restores the slot table. -/
theorem swap_fixup_backrefs_witness :
    (serverSwapItems (fun _ => true) stC5 0 1).1.equippedItems.getD 0 Entry.empty =
      { stC5.equippedItems.getD 0 Entry.empty with inventorySlotIndex := 1 } ∧
    (serverSwapItems (fun _ => true) (serverSwapItems (fun _ => true) stC5 0 1).1
      0 1).1.equippedItems = stC5.equippedItems := by
  constructor
  · exact (((swap_fixup_backrefs (fun _ => true) stC5 0 1 [⟨0, 1⟩, ⟨1, 1⟩] rfl
      (by decide) (by decide) (by decide) (by decide) (by decide)).2.1 0
      (by decide)).2 (by decide)).1 (by decide)
  · exact (swap_fixup_backrefs (fun _ => true) stC5 0 1 [⟨0, 1⟩, ⟨1, 1⟩] rfl
      (by decide) (by decide) (by decide) (by decide) (by decide)).2.2.2
      [⟨1, 1⟩, ⟨0, 1⟩] (by decide) (by decide) (by decide)

/-! ## Claim C2 (corrected): invariant I3 under transaction sequences -/

/-- Fresh manager state right after `BeginPlay`: empty storage bound, three
empty slots. -/
def stInit : ManagerState :=
  { inventoryStorage := some []
    equippedItems := [Entry.empty, Entry.empty, Entry.empty]
    maxEquipmentSlots := 3
    asc := none }

/-- A transaction sequence that breaks I3 when identifier 0 is not
stackable: two stacks of the same identifier are equipped from their two
storage indices, and the next reconciliation re-binds both entries to the
first index carrying that identifier. -/
def opsC2 : List Op := [.add 0 1, .add 0 1, .equip 0 0, .equip 1 1, .add 1 1]

/-- C2 counterexample: with a storage whose stacking rules allow two entries
with the same identifier, a sequence of add/equip transactions run to
completion (reconciliation included) leaves two valid slot entries recording
the same storage index — I3 fails. -/
theorem invariantI3_cex :
    ¬ distinctIdx (runOps (fun _ => false) envTest [] stInit opsC2).equippedItems := by
  decide

/-- C2 (amended): after any sequence of add/remove/discard/swap/equip/unequip
transactions, each run to completion including the storage-update
reconciliation, no two valid slot entries record the same storage index —
provided the storage collaborator stacks by identifier, so that no two
storage entries ever share an identifier. (The unamended claim, which asserts
this even for duplicated identifiers, is refuted by the counterexample.)
The hypothesis `Inv` holds for any freshly initialised manager: storage bound
with pairwise-distinct identifiers and every slot entry empty or correctly
bound. -/
theorem invariantI3_preserved (env : Env) (tags : List Nat) (ops : List Op)
    (st : ManagerState) (h : Inv st) :
    distinctIdx (runOps (fun _ => true) env tags st ops).equippedItems := by
  obtain ⟨items, _, _, _, hD⟩ := inv_runOps (fun _ => rfl) ops st h
  exact hD

/-- Initial storage for the C2 witness. -/
def itemsC2w : List ItemInfo := [⟨0, 1⟩, ⟨1, 1⟩]

/-- State for the C2 witness: two distinct items, empty slot table. -/
def stC2w : ManagerState :=
  { inventoryStorage := some itemsC2w
    equippedItems := [Entry.empty, Entry.empty, Entry.empty]
    maxEquipmentSlots := 3
    asc := none }

/-- Witness for the amended C2: a mixed transaction sequence on a
distinct-identifier storage preserves I3. -/
theorem invariantI3_preserved_witness :
    distinctIdx (runOps (fun _ => true) envTest [] stC2w
      [.equip 0 0, .equip 1 1, .swap 0 1, .unequip 0, .add 2 1,
       .discard 2 1, .remove 0 1]).equippedItems :=
  invariantI3_preserved envTest []
    [.equip 0 0, .equip 1 1, .swap 0 1, .unequip 0, .add 2 1,
     .discard 2 1, .remove 0 1] stC2w
    ⟨itemsC2w, rfl, by decide, by decide, by decide⟩

end Crater
